import Mathlib

/-!
Shallow embedding of the wptagent job/task lifecycle from
src/wptagent.py and src/internal/webpagetest.py.

The filesystem, the network transport and the coordinator responses are
modelled explicitly: directories are a list of path strings, regular files
are keyed by the pair (directory, filename) because every path the source
manipulates is a `dir + "/" + name` join, and the outcome of the i-th
network request is an oracle `netOk : Nat → Bool`.  A Python exception that
escapes a function is modelled with `Except`, the error value carrying the
state at the moment the exception propagates (side effects performed before
the raise persist).
-/

namespace Wpt

/-- Filesystem model: existing directories (full path strings) and regular
files keyed by (directory, filename) together with their byte size. -/
structure FS where
  dirs : List String
  files : List ((String × String) × Nat)
deriving DecidableEq, Repr

/-- True when `p` equals `root` or lies strictly below it. -/
def isUnderPath (root p : String) : Bool :=
  p == root || (root ++ "/").isPrefixOf p

/-- Model of os.path.isdir. -/
def fsIsdir (fs : FS) (p : String) : Bool := fs.dirs.contains p

/-- Model of os.path.isfile on a (directory, filename) key. -/
def fsIsfile (fs : FS) (k : String × String) : Bool :=
  fs.files.any (fun f => f.1 == k)

/-- Model of os.path.getsize (0 when the file is absent). -/
def fsGetsize (fs : FS) (k : String × String) : Nat :=
  ((fs.files.find? (fun f => f.1 == k)).map Prod.snd).getD 0

/-- Model of shutil.rmtree: removes the directory and everything below it. -/
def fsRmtree (fs : FS) (p : String) : FS :=
  ⟨fs.dirs.filter (fun d => !(isUnderPath p d)),
   fs.files.filter (fun f => !(isUnderPath p f.1.1))⟩

/-- Model of os.makedirs. -/
def fsMakedirs (fs : FS) (p : String) : FS := ⟨p :: fs.dirs, fs.files⟩

/-- Model of os.remove. -/
def fsRemoveFile (fs : FS) (k : String × String) : FS :=
  ⟨fs.dirs, fs.files.filter (fun f => !(f.1 == k))⟩

/-- The regular files directly inside directory `d`, as (name, size) pairs
(model of os.listdir filtered by os.path.isfile, as the source does). -/
def listdirFiles (fs : FS) (d : String) : List (String × Nat) :=
  (fs.files.filter (fun f => f.1.1 == d)).map (fun f => (f.1.2, f.2))

/-- One script command, as built by WebPageTest.build_script:
a dict with keys command / target / record. -/
structure Command where
  command : String
  target : String
  record : Bool
deriving DecidableEq, Repr

/-- The mutable per-job progress cursor job['current_state']. -/
structure CurrentState where
  run : Nat
  repeat_view : Bool
  done : Bool
deriving DecidableEq, Repr

/-- A job dict as handled by WebPageTest.get_test / get_task.  `testId` is
the 'Test ID' key; optional keys are Options; `current_state` is absent
(none) until get_task first touches the job. -/
structure Job where
  testId : String
  browser : String
  runs : Nat
  fvonly : Option Bool
  iq : Nat
  pngss : Bool
  script : Option (List Command)
  url : Option String
  current_state : Option CurrentState
deriving DecidableEq, Repr

/-- Truthiness of `'fvonly' in job and job['fvonly']`. -/
def jobFvonly (j : Job) : Bool := j.fvonly.getD false

/-- A task dict as built by WebPageTest.get_task.  `cached` is the int
0 / 1 of the source; `prefixStr` is the 'prefix' key; `script` is set by
build_script (and stays absent when the job carries its own script). -/
structure Task where
  id : String
  run : Nat
  cached : Nat
  done : Bool
  profile : String
  time_limit : Nat
  width : Nat
  height : Nat
  port : Nat
  prefixStr : String
  dir : String
  script : Option (List Command)
  error : Option String
deriving DecidableEq, Repr

/-- The WebPageTest controller object: server url, location, optional key,
agent name, working directory and browser-profile directory stem, as set up
by WebPageTest.__init__. -/
structure WebPageTest where
  url : String
  location : String
  key : Option String
  pc_name : String
  workdir : String
  profile_dir : String
deriving DecidableEq, Repr

/-- Model of WebPageTest.build_script: when the job carries a 'script' the
source only has a TODO and `pass`, leaving the task without a script;
otherwise, when the job has a 'url', a single navigate command is
synthesized. -/
def build_script (job : Job) (task : Task) : Task :=
  match job.script with
  | some _ => task
  | none =>
    match job.url with
    | some u => { task with script := some [⟨"navigate", u, true⟩] }
    | none => task

/-- The state-advance step at the top of WebPageTest.get_task: create the
initial cursor, flip to the repeat view, or move to the next run. -/
def next_state (j : Job) : CurrentState :=
  match j.current_state with
  | none => ⟨1, false, false⟩
  | some st =>
    if !st.repeat_view && !(jobFvonly j) then { st with repeat_view := true }
    else { st with run := st.run + 1, repeat_view := false }

/-- The task dict literal built by WebPageTest.get_task for cursor `st`
(before the final done-update and build_script). -/
def make_task (w : WebPageTest) (j : Job) (st : CurrentState) : Task :=
  let test_id := j.testId
  let run := st.run
  let profile_dir := w.profile_dir ++ "." ++ test_id ++ "." ++ toString run
  let cached : Nat := if st.repeat_view then 1 else 0
  let p0 := toString run ++ "_"
  let p1 := if cached != 0 then p0 ++ "Cached_" else p0
  let short_id := test_id ++ "." ++ toString run ++ "." ++ toString cached
  { id := test_id, run := run, cached := cached, done := false,
    profile := profile_dir, time_limit := 120, width := 1024, height := 768,
    port := 9222, prefixStr := p1, dir := w.workdir ++ "/" ++ short_id,
    script := none, error := none }

/-- The pure part of WebPageTest.get_task: the produced task (if any) and
the job with its updated current_state. -/
def get_task_pure (w : WebPageTest) (job : Job) : Option Task × Job :=
  let proceed := match job.current_state with
    | none => true
    | some st => !st.done
  if proceed then
    let st := next_state job
    if st.run ≤ job.runs then
      let task0 := make_task w job st
      let isDone := st.run == job.runs && (st.repeat_view || jobFvonly job)
      let st1 := if isDone then { st with done := true } else st
      let task1 := if isDone then { task0 with done := true } else task0
      let task2 := build_script job task1
      (some task2, { job with current_state := some st1 })
    else (none, { job with current_state := some st })
  else (none, job)

/-- The filesystem effect of WebPageTest.get_task: (re)create the task and
profile directories when a task is produced, otherwise remove the whole
working directory (the try / except pass around rmtree is modelled as the
removal succeeding). -/
def get_task_fs (w : WebPageTest) (job : Job) (fs : FS) : FS :=
  match (get_task_pure w job).1 with
  | some t =>
    let fs1 := if fsIsdir fs t.dir then fsRmtree fs t.dir else fs
    let fs2 := fsMakedirs fs1 t.dir
    if !(fsIsdir fs2 t.profile) then fsMakedirs fs2 t.profile else fs2
  | none => if fsIsdir fs w.workdir then fsRmtree fs w.workdir else fs

/-- Model of WebPageTest.get_task. -/
def get_task (w : WebPageTest) (job : Job) (fs : FS) : Option Task × Job × FS :=
  ((get_task_pure w job).1, (get_task_pure w job).2, get_task_fs w job fs)

/-- The (job, filesystem) pair after one get_task call. -/
def jobStep (w : WebPageTest) (p : Job × FS) : Job × FS :=
  ((get_task w p.1 p.2).2.1, (get_task w p.1 p.2).2.2)

/-- The (job, filesystem) pair after `k` successive get_task calls. -/
def jobIter (w : WebPageTest) : Nat → Job × FS → Job × FS
  | 0, p => p
  | k + 1, p => jobStep w (jobIter w k p)

/-- The sequence of tasks produced by successive get_task calls, stopping at
the first call that yields no task (fuel-bounded). -/
def runTasks (w : WebPageTest) : Nat → Job → FS → List Task
  | 0, _, _ => []
  | fuel + 1, j, fs =>
    match get_task w j fs with
    | (none, _, _) => []
    | (some t, j', fs') => t :: runTasks w fuel j' fs'

/-- Projection of a task list to the (run, cached, done) triples the
scheduling claims talk about. -/
def mapTri (ts : List Task) : List (Nat × Nat × Bool) :=
  ts.map (fun t => (t.run, t.cached, t.done))

/-- Expected (run, cached, done) triples for `d` remaining runs starting at
run `r` when repeat views are enabled: each run contributes a first view and
a cached view, and only the very last cached view is marked done. -/
def fvExpectedFrom : Nat → Nat → List (Nat × Nat × Bool)
  | 0, _ => []
  | d + 1, r => (r, 0, false) :: (r, 1, d == 0) :: fvExpectedFrom d (r + 1)

/-- Expected (run, cached, done) triples for `d` remaining runs starting at
run `r` when fvonly is set: one first view per run, the last marked done. -/
def fvoExpectedFrom : Nat → Nat → List (Nat × Nat × Bool)
  | 0, _ => []
  | d + 1, r => (r, 0, d == 0) :: fvoExpectedFrom d (r + 1)

/-- Upper-case hex digit of a value below 16. -/
def hexDigit (n : Nat) : Char :=
  if n < 10 then Char.ofNat (48 + n) else Char.ofNat (55 + n)

/-- Percent-encoding of one byte. -/
def quoteByte (n : Nat) : String :=
  String.mk ['%', hexDigit (n / 16 % 16), hexDigit (n % 16)]

/-- Model of urllib.quote_plus on a string: alphanumerics and `_.-` kept,
space becomes `+`, everything else percent-encoded bytewise. -/
def quote_plus_str (s : String) : String :=
  s.data.foldl (fun acc c =>
    if c.isAlphanum || c = '_' || c = '.' || c = '-' then acc.push c
    else if c = ' ' then acc.push '+'
    else acc ++ quoteByte (c.toNat % 256)) ""

/-- Model of urllib.quote_plus as the source calls it on a dict value that
may be None: quoting None raises in Python (the value has no string
methods), modelled as an error. -/
def quote_plus : Option String → Except Unit String
  | none => .error ()
  | some s => .ok (quote_plus_str s)

/-- The query string `key=value&...` post_data appends to the url, built by
quoting each value in turn; it raises as soon as a value is None. -/
def buildQuery : List (String × Option String) → Except Unit String
  | [] => .ok ""
  | (k, v) :: rest =>
    match quote_plus v with
    | .error e => .error e
    | .ok qv =>
      match buildQuery rest with
      | .error e => .error e
      | .ok tail => .ok (k ++ "=" ++ qv ++ "&" ++ tail)

/-- One HTTP request as issued by post_data: the full url (endpoint plus
query string) and the attached file, if any, as (filename, (dir, name)). -/
structure Request where
  url : String
  file_attached : Option (String × (String × String))
deriving DecidableEq, Repr

/-- The world state threaded through the upload code: the filesystem, the
index of the next network request (fed to the outcome oracle) and the log of
requests issued so far. -/
structure St where
  fs : FS
  n : Nat
  reqs : List Request
deriving DecidableEq, Repr

/-- The attachment post_data sends: the file's bytes under `filename` when
a path was given and the file exists, nothing otherwise. -/
def attachOf (file_path : Option (String × String)) (filename : String)
    (st : St) : Option (String × (String × String)) :=
  match file_path with
  | some fp => if fsIsfile st.fs fp then some (filename, fp) else none
  | none => none

/-- Model of WebPageTest.post_data.  The query string is built before the
try block, so a None value raises with no request issued (`.error` with the
unchanged state).  Otherwise the request is recorded; a transport or file
error inside the try block is caught and turns into a `false` result, never
an exception — the i-th request's outcome is `netOk i`. -/
def post_data (netOk : Nat → Bool) (url : String)
    (data : List (String × Option String))
    (file_path : Option (String × String)) (filename : String) (st : St) :
    Except St (Bool × St) :=
  match buildQuery data with
  | .error _ => .error st
  | .ok q =>
    .ok (netOk st.n,
      { st with
          n := st.n + 1,
          reqs := st.reqs ++ [⟨url ++ "?" ++ q, attachOf file_path filename st⟩] })

/-- The common metadata dict attached to every upload request of a task. -/
def upload_data (w : WebPageTest) (task : Task) : List (String × Option String) :=
  [("id", some task.id), ("location", some w.location), ("key", w.key),
   ("run", some (toString task.run)), ("cached", some (toString task.cached))]

/-- The per-file loop over the video subdirectory in
WebPageTest.upload_task_result: every video frame is posted individually to
resultimage.php under the task prefix; results are ignored and nothing is
removed. -/
def upload_video_loop (w : WebPageTest) (netOk : Nat → Bool)
    (data : List (String × Option String)) (video_dir pfx : String) :
    List (String × Nat) → St → Except St St
  | [], st => .ok st
  | (name, _) :: rest, st =>
    match post_data netOk (w.url ++ "resultimage.php") data
        (some (video_dir, name)) (pfx ++ name) st with
    | .error e => .error e
    | .ok (_, st') => upload_video_loop w netOk data video_dir pfx rest st'

/-- The per-file loop over the task directory in
WebPageTest.upload_task_result: a file above 100000 bytes is posted
individually (removed on success, queued for the zip on failure); a file at
or below the threshold is queued for the zip directly. -/
def upload_files_loop (w : WebPageTest) (netOk : Nat → Bool)
    (data : List (String × Option String)) (dir : String) :
    List (String × Nat) → St → List (String × String) →
    Except St (St × List (String × String))
  | [], st, nz => .ok (st, nz)
  | (name, size) :: rest, st, nz =>
    if size > 100000 then
      match post_data netOk (w.url ++ "resultimage.php") data
          (some (dir, name)) name st with
      | .error e => .error e
      | .ok (ok, st') =>
        if ok then
          upload_files_loop w netOk data dir rest
            { st' with fs := fsRemoveFile st'.fs (dir, name) } nz
        else upload_files_loop w netOk data dir rest st' (nz ++ [(dir, name)])
    else upload_files_loop w netOk data dir rest st (nz ++ [(dir, name)])

/-- The zip phase of WebPageTest.upload_task_result: when files were queued,
result.zip is written into the task directory (its size abstracted as the
sum of the members' sizes) and every member is removed as it is added. -/
def zip_phase (fs : FS) (dir : String) (nz : List (String × String)) :
    Option (String × String) × FS :=
  if nz.isEmpty then (none, fs)
  else
    let total := nz.foldl (fun a k => a + fsGetsize fs k) 0
    let fs1 := nz.foldl (fun f k => fsRemoveFile f k) fs
    (some (dir, "result.zip"), { fs1 with files := fs1.files ++ [((dir, "result.zip"), total)] })

/-- The final cleanup of WebPageTest.upload_task_result: the task directory
is removed whenever it exists, and when the task is done the whole working
directory is removed as well (the try / except pass is modelled as the
removal succeeding). -/
def upload_cleanup (w : WebPageTest) (task : Task) (st : St) : St :=
  let st1 := if fsIsdir st.fs task.dir then { st with fs := fsRmtree st.fs task.dir } else st
  if task.done && fsIsdir st1.fs w.workdir then { st1 with fs := fsRmtree st1.fs w.workdir }
  else st1

/-- The artifact-gathering phase of WebPageTest.upload_task_result (run
only when the task directory exists): video frames posted first, then the
large-file loop over the directory snapshot, then the zip of the queued
files; yields the optional zip attachment and the resulting state. -/
def upload_phase1 (w : WebPageTest) (netOk : Nat → Bool) (task : Task)
    (st : St) : Except St (Option (String × String) × St) :=
  if fsIsdir st.fs task.dir then
    match (if fsIsdir st.fs (task.dir ++ "/video") then
             upload_video_loop w netOk (upload_data w task) (task.dir ++ "/video")
               task.prefixStr (listdirFiles st.fs (task.dir ++ "/video")) st
           else .ok st) with
    | .error e => .error e
    | .ok st1 =>
      match upload_files_loop w netOk (upload_data w task) task.dir
          (listdirFiles st1.fs task.dir) st1 [] with
      | .error e => .error e
      | .ok (st2, nz) =>
        .ok ((zip_phase st2.fs task.dir nz).1,
          { st2 with fs := (zip_phase st2.fs task.dir nz).2 })
  else .ok (none, st)

/-- Model of WebPageTest.upload_task_result: the artifact phase, then the
workdone.php completion post (with done=1 when the task is done, and the
zip attached when one was produced), then cleanup. -/
def upload_task_result (w : WebPageTest) (netOk : Nat → Bool) (task : Task)
    (st : St) : Except St St :=
  match upload_phase1 w netOk task st with
  | .error e => .error e
  | .ok (zip_path, st3) =>
    match post_data netOk (w.url ++ "workdone.php")
        (if task.done then upload_data w task ++ [("done", some "1")]
         else upload_data w task) zip_path "result.zip" st3 with
    | .error e => .error e
    | .ok (_, st4) => .ok (upload_cleanup w task st4)

/-- Modelled from the spec: the browser registry (src/internal/browsers.py
is not among the verified sources) maps a browser selector to its launch
configuration, and acquisition returns the registered entry or nothing. -/
def get_browser (registry : List (String × String)) (name : String) :
    Option String :=
  (registry.find? (fun kv => kv.1 == name)).map Prod.snd

/-- One pass of the inner task loop of WPTAgent.run_testing: acquire the
browser for the job's selector; when none is registered, record the error
string on the task and skip execution; in either case call
upload_task_result exactly once on the resulting task.  The external
browser execution (prepare / launch / run_test / stop) is abstracted as
`execTask`. -/
def run_task_iteration (w : WebPageTest) (netOk : Nat → Bool)
    (registry : List (String × String)) (execTask : Task → Task)
    (browserName : String) (task : Task) (st : St) : Except St (Task × St) :=
  match get_browser registry browserName with
  | some _ =>
    let t := execTask task
    match upload_task_result w netOk t st with
    | .error e => .error e
    | .ok st' => .ok (t, st')
  | none =>
    let t := { task with error := some ("Invalid browser - " ++ browserName) }
    match upload_task_result w netOk t st with
    | .error e => .error e
    | .ok st' => .ok (t, st')

/-- A parsed job JSON body as the coordinator may send it: every field of
the schema is optional at this stage (get_test checks and defaults them). -/
structure RawJob where
  testId : Option String
  browser : Option String
  runs : Option Nat
  fvonly : Option Bool
  iq : Option Nat
  pngss : Option Bool
  script : Option (List Command)
  url : Option String
deriving DecidableEq, Repr

/-- A coordinator response as observed by WebPageTest.get_test: the body
text and the outcome of response.json() — `none` models a body that fails
to parse (ValueError). -/
structure WptResponse where
  text : String
  json : Option RawJob
deriving DecidableEq, Repr

/-- The url WebPageTest.get_test polls (the key, when present, is appended
unquoted, as in the source). -/
def getwork_url (w : WebPageTest) : String :=
  let u := w.url ++ "getwork.php?f=json" ++ "&location=" ++ quote_plus_str w.location
      ++ "&pc=" ++ quote_plus_str w.pc_name
  match w.key with
  | some k => u ++ "&key=" ++ k
  | none => u

/-- Model of WebPageTest.get_test over a given transport outcome: a network
error (requests.exceptions.RequestException) is caught and leaves job =
None; an empty body leaves job = None; a body that fails JSON parsing
raises ValueError, which the except clause does not catch; otherwise the
iq / pngss defaults are applied and a job missing any of 'Test ID',
'browser', 'runs' is discarded as None. -/
def get_test (w : WebPageTest) (resp : Except Unit WptResponse) :
    Except Unit (Option Job) :=
  match resp with
  | .error _ => .ok none
  | .ok r =>
    if r.text.length ≠ 0 then
      match r.json with
      | none => .error ()
      | some raw =>
        let iq := raw.iq.getD 30
        let pngss := raw.pngss.getD false
        match raw.testId, raw.browser, raw.runs with
        | some tid, some b, some n =>
          .ok (some ⟨tid, b, n, raw.fvonly, iq, pngss, raw.script, raw.url, none⟩)
        | none, _, _ => .ok none
        | _, none, _ => .ok none
        | _, _, none => .ok none
    else .ok none

/-- The outer loop of WPTAgent.run_testing, fuel-bounded: the must-exit
flag (set asynchronously by the signal handler, given here as a schedule
`sig`) is checked once per iteration; the whole body is wrapped in
`except BaseException`, so its outcome — normal or exceptional — is logged
and discarded.  Returns the iteration index at which the loop exited, or
none if the fuel ran out first. -/
def run_testing_loop (fuel : Nat) (sig : Nat → Bool)
    (body : Nat → Except Unit Unit) (i : Nat) : Option Nat :=
  match fuel with
  | 0 => none
  | f + 1 =>
    if sig i then some i
    else
      match body i with
      | .ok _ => run_testing_loop f sig body (i + 1)
      | .error _ => run_testing_loop f sig body (i + 1)

/-- A concrete controller instance used by the witnesses. -/
def exW : WebPageTest := ⟨"s", "loc", some "k", "pc", "w", "p"⟩

/-- A concrete controller with no access key, used by the witnesses. -/
def exWnokey : WebPageTest := ⟨"s", "loc", none, "pc", "w", "p"⟩

/-- A concrete job whose cursor is already done, used by the witnesses. -/
def exJobDone : Job :=
  ⟨"T1", "chrome", 1, none, 30, false, none, some "http://x", some ⟨1, true, true⟩⟩

/-- A fresh concrete two-run job with repeat views, used by the witnesses. -/
def exJobFresh : Job :=
  ⟨"T1", "chrome", 2, none, 30, false, none, some "http://x", none⟩

/-- A fresh concrete two-run first-view-only job, used by the witnesses. -/
def exJobFvo : Job :=
  ⟨"T1", "chrome", 2, some true, 30, false, none, some "http://x", none⟩

/-- An empty concrete filesystem, used by the witnesses. -/
def exFS : FS := ⟨[], []⟩

/-- An empty concrete world state, used by the witnesses. -/
def exSt : St := ⟨⟨[], []⟩, 0, []⟩

/-- A network oracle on which every request succeeds. -/
def netTrue : Nat → Bool := fun _ => true

/-- A network oracle on which every request fails. -/
def netFalse : Nat → Bool := fun _ => false

/-- A concrete task, not yet done, used by the witnesses. -/
def exTask : Task :=
  ⟨"T1", 1, 0, false, "p.T1.1", 120, 1024, 768, 9222, "1_", "w/T1.1.0", none, none⟩

/-- A concrete final task (done = true), used by the witnesses. -/
def exTaskDone : Task :=
  ⟨"T1", 2, 1, true, "p.T1.2", 120, 1024, 768, 9222, "2_Cached_", "w/T1.2.1", none, none⟩

/-- A concrete task directory used by the witnesses. -/
def exDir : String := "w/T1.1.0"

/-- A concrete directory snapshot with one file just above and one at the
100000-byte threshold, used by the witnesses. -/
def exFilesC3 : List (String × Nat) := [("big.bin", 100001), ("small.bin", 100000)]

/-- The concrete starting state matching exFilesC3, used by the witnesses. -/
def exStC3 : St :=
  ⟨⟨["w/T1.1.0"], [(("w/T1.1.0", "big.bin"), 100001),
    (("w/T1.1.0", "small.bin"), 100000)]⟩, 0, []⟩

/-- The state after running the upload loop on exStC3 with every request
succeeding: the large file was posted and removed, the small one queued. -/
def exStC3' : St :=
  ⟨⟨["w/T1.1.0"], [(("w/T1.1.0", "small.bin"), 100000)]⟩, 1,
    [⟨"sresultimage.php?id=T1&location=loc&key=k&run=1&cached=0&",
      some ("big.bin", ("w/T1.1.0", "big.bin"))⟩]⟩

/-- The zip queue after running the upload loop on exStC3. -/
def exNzC3' : List (String × String) := [("w/T1.1.0", "small.bin")]

/-- The state after uploading exTaskDone from the empty state with every
request succeeding: one workdone post, nothing else. -/
def exStC8' : St :=
  ⟨⟨[], []⟩, 1,
    [⟨"sworkdone.php?id=T1&location=loc&key=k&run=2&cached=1&done=1&", none⟩]⟩

/-- A concrete parsed job body with all required fields, used by the
witnesses. -/
def exRaw : RawJob :=
  ⟨some "T1", some "chrome", some 2, none, none, none, none, some "http://x"⟩

/-- A concrete non-empty coordinator response that parses to exRaw. -/
def exResp : Except Unit WptResponse := .ok ⟨"x", some exRaw⟩

/-- The run counter of a job's cursor (0 before the cursor exists). -/
def jobRunCounter (j : Job) : Nat :=
  match j.current_state with
  | none => 0
  | some st => st.run

/-- The done flag of a job's cursor (false before the cursor exists). -/
def jobDoneFlag (j : Job) : Bool :=
  match j.current_state with
  | none => false
  | some st => st.done

/-! Helper lemmas about the scheduler state machine. -/

theorem get_task_pure_of_done (w : WebPageTest) (j : Job) (st : CurrentState)
    (h : j.current_state = some st) (hd : st.done = true) :
    get_task_pure w j = (none, j) := by
  simp [get_task_pure, h, hd]

theorem get_task_fst (w : WebPageTest) (j : Job) (fs : FS) :
    (get_task w j fs).1 = (get_task_pure w j).1 := rfl

theorem get_task_job (w : WebPageTest) (j : Job) (fs : FS) :
    (get_task w j fs).2.1 = (get_task_pure w j).2 := rfl

theorem get_task_none_of_done (w : WebPageTest) (j : Job) (fs : FS)
    (h : jobDoneFlag j = true) :
    (get_task w j fs).1 = none ∧ (get_task w j fs).2.1 = j := by
  unfold jobDoneFlag at h
  match hc : j.current_state with
  | none => rw [hc] at h; exact absurd h (by simp)
  | some st =>
    rw [hc] at h
    rw [get_task_fst, get_task_job, get_task_pure_of_done w j st hc h]
    exact ⟨rfl, rfl⟩

theorem runTasks_of_done (w : WebPageTest) (fuel : Nat) (j : Job) (fs : FS)
    (h : jobDoneFlag j = true) :
    runTasks w fuel j fs = [] := by
  cases fuel with
  | zero => rfl
  | succ f =>
    have hn := (get_task_none_of_done w j fs h).1
    unfold runTasks
    match hg : get_task w j fs with
    | (none, j', fs') => rfl
    | (some t, j', fs') => rw [hg] at hn; exact absurd hn (by simp)

theorem jobRunCounter_le_step (w : WebPageTest) (j : Job) :
    jobRunCounter j ≤ jobRunCounter (get_task_pure w j).2 := by
  match hc : j.current_state with
  | none =>
    simp only [get_task_pure, next_state, hc]
    split_ifs <;> simp [jobRunCounter, hc]
  | some st =>
    cases hd : st.done with
    | true => rw [get_task_pure_of_done w j st hc hd]
    | false =>
      simp only [get_task_pure, next_state, hc, hd, Bool.not_false, if_true]
      split_ifs <;> simp [jobRunCounter, hc] <;> omega

theorem jobIter_add (w : WebPageTest) (a b : Nat) (p : Job × FS) :
    jobIter w (a + b) p = jobIter w b (jobIter w a p) := by
  induction b with
  | zero => rfl
  | succ b ih => rw [Nat.add_succ]; unfold jobIter; rw [ih]

theorem jobStep_of_done (w : WebPageTest) (p : Job × FS)
    (h : jobDoneFlag p.1 = true) : (jobStep w p).1 = p.1 :=
  (get_task_none_of_done w p.1 p.2 h).2

theorem jobIter_job_of_done (w : WebPageTest) (d : Nat) (p : Job × FS)
    (h : jobDoneFlag p.1 = true) : (jobIter w d p).1 = p.1 := by
  induction d with
  | zero => rfl
  | succ d ih =>
    show (jobStep w (jobIter w d p)).1 = p.1
    rw [jobStep_of_done w (jobIter w d p) (ih ▸ h), ih]

/-- C2: across successive get_task calls on a job, the cursor's run counter
never decreases, and from the moment the cursor's done flag is set every
later call yields no task. -/
theorem c2_run_monotone_and_done_absorbing (w : WebPageTest) (j : Job) (fs : FS) :
    (∀ k, jobRunCounter (jobIter w k (j, fs)).1 ≤
        jobRunCounter (jobIter w (k + 1) (j, fs)).1)
  ∧ (∀ k m, k ≤ m → jobDoneFlag (jobIter w k (j, fs)).1 = true →
      (get_task w (jobIter w m (j, fs)).1 (jobIter w m (j, fs)).2).1 = none) := by
  constructor
  · intro k
    show jobRunCounter (jobIter w k (j, fs)).1 ≤
        jobRunCounter (jobStep w (jobIter w k (j, fs))).1
    exact jobRunCounter_le_step w (jobIter w k (j, fs)).1
  · intro k m hkm hdone
    obtain ⟨d, rfl⟩ : ∃ d, m = k + d := ⟨m - k, by omega⟩
    rw [jobIter_add]
    have hjob : (jobIter w d (jobIter w k (j, fs))).1 = (jobIter w k (j, fs)).1 :=
      jobIter_job_of_done w d _ hdone
    exact (get_task_none_of_done w _ _ (hjob ▸ hdone)).1

/-- C2 witness: a concrete job whose cursor is done yields no further task
three calls later. -/
theorem c2_witness :
    (get_task exW (jobIter exW 3 (exJobDone, exFS)).1
        (jobIter exW 3 (exJobDone, exFS)).2).1 = none :=
  (c2_run_monotone_and_done_absorbing exW exJobDone exFS).2 0 3 (by omega) (by decide)

/-- C5 (amended): when the job carries a pre-built script the task is left
without one (the source's TODO branch does nothing); when the job has only
a url the task's script becomes the single navigate command; with neither,
the task is unchanged. -/
theorem c5_build_script_amended (job : Job) (task : Task) :
    (∀ s, job.script = some s → build_script job task = task)
  ∧ (∀ u, job.script = none → job.url = some u →
      build_script job task = { task with script := some [⟨"navigate", u, true⟩] })
  ∧ (job.script = none → job.url = none → build_script job task = task) := by
  refine ⟨?_, ?_, ?_⟩
  · intro s hs; simp [build_script, hs]
  · intro u hs hu; simp [build_script, hs, hu]
  · intro hs hu; simp [build_script, hs, hu]

/-- C5 counterexample: a job carrying a pre-built command sequence does not
get it copied onto the task — the task ends up with no script at all. -/
theorem c5_counterexample :
    (⟨"T1", "chrome", 1, none, 30, false, some [⟨"navigate", "http://x", true⟩],
        some "http://x", none⟩ : Job).script =
      some [⟨"navigate", "http://x", true⟩]
  ∧ (build_script
        ⟨"T1", "chrome", 1, none, 30, false, some [⟨"navigate", "http://x", true⟩],
          some "http://x", none⟩
        ⟨"T1", 1, 0, false, "p.T1.1", 120, 1024, 768, 9222, "1_", "w/T1.1.0",
          none, none⟩).script = none := by
  exact ⟨rfl, rfl⟩

/-- C5 witness: the amended statement evaluated at concrete inputs, for a
job with a script and for a job with only a url. -/
theorem c5_witness :
    build_script
        ⟨"T1", "chrome", 1, none, 30, false, some [⟨"navigate", "http://x", true⟩],
          some "http://x", none⟩
        ⟨"T1", 1, 0, false, "p.T1.1", 120, 1024, 768, 9222, "1_", "w/T1.1.0",
          none, none⟩ =
      ⟨"T1", 1, 0, false, "p.T1.1", 120, 1024, 768, 9222, "1_", "w/T1.1.0",
        none, none⟩
  ∧ build_script
        ⟨"T1", "chrome", 1, none, 30, false, none, some "http://x", none⟩
        ⟨"T1", 1, 0, false, "p.T1.1", 120, 1024, 768, 9222, "1_", "w/T1.1.0",
          none, none⟩ =
      ⟨"T1", 1, 0, false, "p.T1.1", 120, 1024, 768, 9222, "1_", "w/T1.1.0",
        some [⟨"navigate", "http://x", true⟩], none⟩ := by
  constructor
  · exact (c5_build_script_amended _ _).1 [⟨"navigate", "http://x", true⟩] rfl
  · exact (c5_build_script_amended _ _).2.1 "http://x" rfl rfl

theorem build_script_run (j : Job) (t : Task) : (build_script j t).run = t.run := by
  unfold build_script; cases j.script <;> cases j.url <;> rfl

theorem build_script_cached (j : Job) (t : Task) :
    (build_script j t).cached = t.cached := by
  unfold build_script; cases j.script <;> cases j.url <;> rfl

theorem build_script_done (j : Job) (t : Task) :
    (build_script j t).done = t.done := by
  unfold build_script; cases j.script <;> cases j.url <;> rfl

theorem get_task_eq (w : WebPageTest) (j : Job) (fs : FS) :
    get_task w j fs = ((get_task_pure w j).1, (get_task_pure w j).2, get_task_fs w j fs) :=
  rfl

/-! Shape lemmas for each transition of the get_task state machine. -/

theorem pure_fresh_mid (w : WebPageTest) (j : Job)
    (hc : j.current_state = none) (hr : 1 ≤ j.runs)
    (hlast : (1 == j.runs && jobFvonly j) = false) :
    get_task_pure w j =
      (some (build_script j (make_task w j ⟨1, false, false⟩)),
       { j with current_state := some ⟨1, false, false⟩ }) := by
  simp only [get_task_pure, next_state, hc, if_true]
  simp [hr, Bool.false_or, hlast]

theorem pure_fresh_last (w : WebPageTest) (j : Job)
    (hc : j.current_state = none) (hr : 1 ≤ j.runs)
    (hlast : (1 == j.runs && jobFvonly j) = true) :
    get_task_pure w j =
      (some (build_script j { make_task w j ⟨1, false, false⟩ with done := true }),
       { j with current_state := some ⟨1, false, true⟩ }) := by
  simp only [get_task_pure, next_state, hc, if_true]
  simp [hr, Bool.false_or, hlast]

theorem pure_fresh_none (w : WebPageTest) (j : Job)
    (hc : j.current_state = none) (hr : ¬(1 ≤ j.runs)) :
    get_task_pure w j = (none, { j with current_state := some ⟨1, false, false⟩ }) := by
  simp only [get_task_pure, next_state, hc, if_true]
  simp [hr]

theorem pure_flip_mid (w : WebPageTest) (j : Job) (r : Nat)
    (hc : j.current_state = some ⟨r, false, false⟩)
    (hf : jobFvonly j = false) (hr : r ≤ j.runs) (hlast : (r == j.runs) = false) :
    get_task_pure w j =
      (some (build_script j (make_task w j ⟨r, true, false⟩)),
       { j with current_state := some ⟨r, true, false⟩ }) := by
  simp [get_task_pure, next_state, hc, hf, hr, hlast]

theorem pure_flip_last (w : WebPageTest) (j : Job) (r : Nat)
    (hc : j.current_state = some ⟨r, false, false⟩)
    (hf : jobFvonly j = false) (hr : r ≤ j.runs) (hlast : (r == j.runs) = true) :
    get_task_pure w j =
      (some (build_script j { make_task w j ⟨r, true, false⟩ with done := true }),
       { j with current_state := some ⟨r, true, true⟩ }) := by
  simp [get_task_pure, next_state, hc, hf, hr, hlast]

theorem pure_advance_fv (w : WebPageTest) (j : Job) (r : Nat)
    (hc : j.current_state = some ⟨r, true, false⟩)
    (hf : jobFvonly j = false) (hr : r + 1 ≤ j.runs) :
    get_task_pure w j =
      (some (build_script j (make_task w j ⟨r + 1, false, false⟩)),
       { j with current_state := some ⟨r + 1, false, false⟩ }) := by
  simp [get_task_pure, next_state, hc, hf, hr]

theorem pure_advance_fvo_mid (w : WebPageTest) (j : Job) (r : Nat)
    (hc : j.current_state = some ⟨r, false, false⟩)
    (hf : jobFvonly j = true) (hr : r + 1 ≤ j.runs)
    (hlast : (r + 1 == j.runs) = false) :
    get_task_pure w j =
      (some (build_script j (make_task w j ⟨r + 1, false, false⟩)),
       { j with current_state := some ⟨r + 1, false, false⟩ }) := by
  simp [get_task_pure, next_state, hc, hf, hr, hlast]

theorem pure_advance_fvo_last (w : WebPageTest) (j : Job) (r : Nat)
    (hc : j.current_state = some ⟨r, false, false⟩)
    (hf : jobFvonly j = true) (hr : r + 1 ≤ j.runs)
    (hlast : (r + 1 == j.runs) = true) :
    get_task_pure w j =
      (some (build_script j { make_task w j ⟨r + 1, false, false⟩ with done := true }),
       { j with current_state := some ⟨r + 1, false, true⟩ }) := by
  simp [get_task_pure, next_state, hc, hf, hr, hlast]

theorem pure_advance_fvo_none (w : WebPageTest) (j : Job) (r : Nat)
    (hc : j.current_state = some ⟨r, false, false⟩)
    (hf : jobFvonly j = true) (hr : ¬(r + 1 ≤ j.runs)) :
    get_task_pure w j = (none, { j with current_state := some ⟨r + 1, false, false⟩ }) := by
  simp [get_task_pure, next_state, hc, hf, hr]

theorem runTasks_cons (w : WebPageTest) (f : Nat) (j j' : Job) (fs : FS) (t : Task)
    (h : get_task_pure w j = (some t, j')) :
    runTasks w (f + 1) j fs = t :: runTasks w f j' (get_task_fs w j fs) := by
  show (match get_task w j fs with
    | (none, _, _) => []
    | (some t, j', fs') => t :: runTasks w f j' fs') = _
  rw [get_task_eq, h]

theorem runTasks_none (w : WebPageTest) (f : Nat) (j j' : Job) (fs : FS)
    (h : get_task_pure w j = (none, j')) :
    runTasks w (f + 1) j fs = [] := by
  show (match get_task w j fs with
    | (none, _, _) => []
    | (some t, j', fs') => t :: runTasks w f j' fs') = _
  rw [get_task_eq, h]

theorem mapTri_cons (t : Task) (ts : List Task) :
    mapTri (t :: ts) = (t.run, t.cached, t.done) :: mapTri ts := rfl

theorem jobIter_succ_inner (w : WebPageTest) (k : Nat) (p : Job × FS) :
    jobIter w (k + 1) p = jobIter w k (jobStep w p) := by
  have h := jobIter_add w 1 k p
  rw [Nat.add_comm 1 k] at h
  exact h

theorem fvExpectedFrom_length (d : Nat) : ∀ r, (fvExpectedFrom d r).length = 2 * d := by
  induction d with
  | zero => intro r; rfl
  | succ d ih => intro r; simp [fvExpectedFrom, ih]; omega

theorem fvoExpectedFrom_length (d : Nat) : ∀ r, (fvoExpectedFrom d r).length = d := by
  induction d with
  | zero => intro r; rfl
  | succ d ih => intro r; simp [fvoExpectedFrom, ih]

theorem runTasks_bridge (w : WebPageTest) :
    ∀ (fuel : Nat) (j : Job) (fs : FS),
      (runTasks w fuel j fs).length < fuel →
      (get_task w (jobIter w (runTasks w fuel j fs).length (j, fs)).1
          (jobIter w (runTasks w fuel j fs).length (j, fs)).2).1 = none := by
  intro fuel
  induction fuel with
  | zero => intro j fs h; omega
  | succ f ih =>
    intro j fs h
    match hp : get_task_pure w j with
    | (none, j') =>
      rw [runTasks_none w f j j' fs hp]
      simp only [List.length_nil, jobIter]
      rw [get_task_fst, hp]
    | (some t, j') =>
      rw [runTasks_cons w f j j' fs t hp] at h ⊢
      simp only [List.length_cons]
      rw [jobIter_succ_inner]
      have hstep : jobStep w (j, fs) = (j', get_task_fs w j fs) := by
        unfold jobStep
        rw [get_task_job, hp, get_task_eq]
      rw [hstep]
      have := ih j' (get_task_fs w j fs) (by simpa using Nat.lt_of_succ_lt_succ (by simpa using h))
      simpa using this

theorem runTasks_fv_aux (w : WebPageTest) (d : Nat) :
    ∀ (r : Nat) (j : Job) (fs : FS) (fuel : Nat),
      j.runs = r + d → jobFvonly j = false →
      j.current_state = some ⟨r, false, false⟩ →
      2 * d + 1 ≤ fuel →
      mapTri (runTasks w fuel j fs) = (r, 1, d == 0) :: fvExpectedFrom d (r + 1) := by
  induction d with
  | zero =>
    intro r j fs fuel hruns hf hc hfuel
    obtain ⟨f, rfl⟩ : ∃ f, fuel = f + 1 := ⟨fuel - 1, by omega⟩
    have hlast : (r == j.runs) = true := by simp [hruns]
    rw [runTasks_cons w f j _ fs _ (pure_flip_last w j r hc hf (by omega) hlast)]
    rw [runTasks_of_done w f _ _ (by rfl)]
    simp [mapTri, build_script_run, build_script_cached, build_script_done,
      make_task, fvExpectedFrom]
  | succ d ih =>
    intro r j fs fuel hruns hf hc hfuel
    obtain ⟨f, rfl⟩ : ∃ f, fuel = f + 2 := ⟨fuel - 2, by omega⟩
    have hlast : (r == j.runs) = false := by simp [hruns]
    have h1 := pure_flip_mid w j r hc hf (by omega) hlast
    have h2 := pure_advance_fv w
      ⟨j.testId, j.browser, j.runs, j.fvonly, j.iq, j.pngss, j.script, j.url,
        some ⟨r, true, false⟩⟩ r rfl hf (by show r + 1 ≤ j.runs; omega)
    rw [runTasks_cons w (f + 1) j _ fs _ h1]
    rw [runTasks_cons w f _ _ _ _ h2]
    dsimp only
    rw [mapTri_cons, mapTri_cons]
    rw [ih (r + 1)
        ⟨j.testId, j.browser, j.runs, j.fvonly, j.iq, j.pngss, j.script, j.url,
          some ⟨r + 1, false, false⟩⟩ _ f
        (by show j.runs = (r + 1) + d; omega) hf rfl (by omega)]
    simp [mapTri, build_script_run, build_script_cached, build_script_done,
      make_task, fvExpectedFrom]

theorem runTasks_fvo_aux (w : WebPageTest) (d : Nat) :
    ∀ (r : Nat) (j : Job) (fs : FS) (fuel : Nat),
      j.runs = r + d → jobFvonly j = true →
      j.current_state = some ⟨r, false, false⟩ →
      d + 1 ≤ fuel →
      mapTri (runTasks w fuel j fs) = fvoExpectedFrom d (r + 1) := by
  induction d with
  | zero =>
    intro r j fs fuel hruns hf hc hfuel
    obtain ⟨f, rfl⟩ : ∃ f, fuel = f + 1 := ⟨fuel - 1, by omega⟩
    rw [runTasks_none w f j _ fs (pure_advance_fvo_none w j r hc hf (by omega))]
    rfl
  | succ d ih =>
    intro r j fs fuel hruns hf hc hfuel
    obtain ⟨f, rfl⟩ : ∃ f, fuel = f + 1 := ⟨fuel - 1, by omega⟩
    match d with
    | 0 =>
      have hlast : (r + 1 == j.runs) = true := by simp [hruns]
      rw [runTasks_cons w f j _ fs _ (pure_advance_fvo_last w j r hc hf (by omega) hlast)]
      rw [runTasks_of_done w f _ _ (by rfl)]
      simp [mapTri, build_script_run, build_script_cached, build_script_done,
        make_task, fvoExpectedFrom]
    | d' + 1 =>
      have hlast : (r + 1 == j.runs) = false := by simp [hruns]
      rw [runTasks_cons w f j _ fs _ (pure_advance_fvo_mid w j r hc hf (by omega) hlast)]
      rw [mapTri_cons]
      rw [ih (r + 1)
          ⟨j.testId, j.browser, j.runs, j.fvonly, j.iq, j.pngss, j.script, j.url,
            some ⟨r + 1, false, false⟩⟩ _ f
          (by show j.runs = (r + 1) + (d' + 1); omega) hf rfl (by omega)]
      simp [mapTri, build_script_run, build_script_cached, build_script_done,
        make_task, fvoExpectedFrom]

theorem runTasks_fv_full (w : WebPageTest) (j : Job) (fs : FS) (N fuel : Nat)
    (hc : j.current_state = none) (hN : j.runs = N)
    (hf : jobFvonly j = false) (hfuel : 2 * N + 2 ≤ fuel) :
    mapTri (runTasks w fuel j fs) = fvExpectedFrom N 1 := by
  match N, hN with
  | 0, hN =>
    obtain ⟨f, rfl⟩ : ∃ f, fuel = f + 1 := ⟨fuel - 1, by omega⟩
    rw [runTasks_none w f j _ fs (pure_fresh_none w j hc (by omega))]
    rfl
  | d + 1, hN =>
    obtain ⟨f, rfl⟩ : ∃ f, fuel = f + 1 := ⟨fuel - 1, by omega⟩
    have hfv0 : (1 == j.runs && jobFvonly j) = false := by simp [hf]
    rw [runTasks_cons w f j _ fs _ (pure_fresh_mid w j hc (by omega) hfv0), mapTri_cons]
    rw [runTasks_fv_aux w d 1
        ⟨j.testId, j.browser, j.runs, j.fvonly, j.iq, j.pngss, j.script, j.url,
          some ⟨1, false, false⟩⟩ _ f
        (by show j.runs = 1 + d; omega) hf rfl (by omega)]
    simp [build_script_run, build_script_cached, build_script_done, make_task,
      fvExpectedFrom]

theorem runTasks_fvo_full (w : WebPageTest) (j : Job) (fs : FS) (N fuel : Nat)
    (hc : j.current_state = none) (hN : j.runs = N)
    (hf : jobFvonly j = true) (hfuel : N + 2 ≤ fuel) :
    mapTri (runTasks w fuel j fs) = fvoExpectedFrom N 1 := by
  match N, hN with
  | 0, hN =>
    obtain ⟨f, rfl⟩ : ∃ f, fuel = f + 1 := ⟨fuel - 1, by omega⟩
    rw [runTasks_none w f j _ fs (pure_fresh_none w j hc (by omega))]
    rfl
  | 1, hN =>
    obtain ⟨f, rfl⟩ : ∃ f, fuel = f + 1 := ⟨fuel - 1, by omega⟩
    have hfv0 : (1 == j.runs && jobFvonly j) = true := by simp [hf, hN]
    rw [runTasks_cons w f j _ fs _ (pure_fresh_last w j hc (by omega) hfv0), mapTri_cons]
    rw [runTasks_of_done w f _ _ (by rfl)]
    simp [build_script_run, build_script_cached, build_script_done, make_task,
      fvoExpectedFrom, mapTri]
  | d + 2, hN =>
    obtain ⟨f, rfl⟩ : ∃ f, fuel = f + 1 := ⟨fuel - 1, by omega⟩
    have hfv0 : (1 == j.runs && jobFvonly j) = false := by
      simp [hN]
    rw [runTasks_cons w f j _ fs _ (pure_fresh_mid w j hc (by omega) hfv0), mapTri_cons]
    rw [runTasks_fvo_aux w (d + 1) 1
        ⟨j.testId, j.browser, j.runs, j.fvonly, j.iq, j.pngss, j.script, j.url,
          some ⟨1, false, false⟩⟩ _ f
        (by show j.runs = 1 + (d + 1); omega) hf rfl (by omega)]
    simp [build_script_run, build_script_cached, build_script_done, make_task,
      fvoExpectedFrom]

theorem mapTri_length (ts : List Task) : (mapTri ts).length = ts.length := by
  simp [mapTri]

/-- C1: from a fresh job with runs = N, when repeat views are enabled the
successive get_task calls produce exactly the 2N tasks of fvExpectedFrom
(run-ascending, cached alternating 0, 1 within each run, only the 2N-th
marked done) and the (2N+1)-th call yields no task; with fvonly set they
produce exactly the N first-view tasks of fvoExpectedFrom, the last marked
done, and the (N+1)-th call yields no task. -/
theorem c1_task_sequence (w : WebPageTest) (j : Job) (fs : FS) (N : Nat)
    (hc : j.current_state = none) (hN : j.runs = N) :
    (jobFvonly j = false →
      (∀ fuel, 2 * N + 2 ≤ fuel →
        mapTri (runTasks w fuel j fs) = fvExpectedFrom N 1
        ∧ (runTasks w fuel j fs).length = 2 * N)
      ∧ (get_task w (jobIter w (2 * N) (j, fs)).1
          (jobIter w (2 * N) (j, fs)).2).1 = none)
  ∧ (jobFvonly j = true →
      (∀ fuel, N + 2 ≤ fuel →
        mapTri (runTasks w fuel j fs) = fvoExpectedFrom N 1
        ∧ (runTasks w fuel j fs).length = N)
      ∧ (get_task w (jobIter w N (j, fs)).1 (jobIter w N (j, fs)).2).1 = none) := by
  constructor
  · intro hf
    have hlen : ∀ fuel, 2 * N + 2 ≤ fuel →
        mapTri (runTasks w fuel j fs) = fvExpectedFrom N 1
        ∧ (runTasks w fuel j fs).length = 2 * N := by
      intro fuel hfuel
      have hm := runTasks_fv_full w j fs N fuel hc hN hf hfuel
      refine ⟨hm, ?_⟩
      have := congrArg List.length hm
      rw [mapTri_length, fvExpectedFrom_length] at this
      exact this
    refine ⟨hlen, ?_⟩
    have h2 := (hlen (2 * N + 2) (by omega)).2
    have hbr := runTasks_bridge w (2 * N + 2) j fs (by rw [h2]; omega)
    rw [h2] at hbr
    exact hbr
  · intro hf
    have hlen : ∀ fuel, N + 2 ≤ fuel →
        mapTri (runTasks w fuel j fs) = fvoExpectedFrom N 1
        ∧ (runTasks w fuel j fs).length = N := by
      intro fuel hfuel
      have hm := runTasks_fvo_full w j fs N fuel hc hN hf hfuel
      refine ⟨hm, ?_⟩
      have := congrArg List.length hm
      rw [mapTri_length, fvoExpectedFrom_length] at this
      exact this
    refine ⟨hlen, ?_⟩
    have h2 := (hlen (N + 2) (by omega)).2
    have hbr := runTasks_bridge w (N + 2) j fs (by rw [h2]; omega)
    rw [h2] at hbr
    exact hbr

/-- C1 witness: the sequences for a concrete two-run job, with and without
fvonly. -/
theorem c1_witness :
    mapTri (runTasks exW 6 exJobFresh exFS) = fvExpectedFrom 2 1
  ∧ mapTri (runTasks exW 4 exJobFvo exFS) = fvoExpectedFrom 2 1 :=
  ⟨(((c1_task_sequence exW exJobFresh exFS 2 rfl rfl).1 rfl).1 6 (by omega)).1,
   (((c1_task_sequence exW exJobFvo exFS 2 rfl rfl).2 rfl).1 4 (by omega)).1⟩

/-! Lemmas about the query builder and post_data. -/

theorem buildQuery_ok (data : List (String × Option String))
    (h : ∀ kv ∈ data, kv.2.isSome) : ∃ q, buildQuery data = .ok q := by
  induction data with
  | nil => exact ⟨"", rfl⟩
  | cons kv rest ih =>
    obtain ⟨s, hs⟩ := Option.isSome_iff_exists.mp (h kv (by simp))
    obtain ⟨q, hq⟩ := ih (fun x hx => h x (by simp [hx]))
    exact ⟨kv.1 ++ "=" ++ quote_plus_str s ++ "&" ++ q, by
      simp [buildQuery, hs, quote_plus, hq]⟩

theorem buildQuery_err_of_mem (data : List (String × Option String)) (k : String)
    (h : (k, (none : Option String)) ∈ data) : buildQuery data = .error () := by
  induction data with
  | nil => simp at h
  | cons kv rest ih =>
    rcases List.mem_cons.mp h with heq | hmem
    · rw [← heq]; rfl
    · cases hv : kv.2 with
      | none => simp [buildQuery, hv, quote_plus]
      | some s =>
        simp only [buildQuery, hv, quote_plus]
        rw [ih hmem]

theorem post_data_err (netOk : Nat → Bool) (url : String)
    (data : List (String × Option String)) (fp : Option (String × String))
    (fn : String) (st : St) (h : buildQuery data = .error ()) :
    post_data netOk url data fp fn st = .error st := by
  simp [post_data, h]

theorem post_data_ok (netOk : Nat → Bool) (url : String)
    (data : List (String × Option String)) (fp : Option (String × String))
    (fn : String) (st : St) (q : String) (h : buildQuery data = .ok q) :
    post_data netOk url data fp fn st =
      .ok (netOk st.n,
        { st with
            n := st.n + 1,
            reqs := st.reqs ++ [⟨url ++ "?" ++ q, attachOf fp fn st⟩] }) := by
  simp [post_data, h]

/-- C7 (amended): whenever every metadata value is present (a string),
post_data never raises: it records exactly one request — with the file's
bytes attached under the given filename when the path is given and the file
exists, and no attachment otherwise — and returns the transport outcome of
that request as its boolean result. -/
theorem c7_post_data_amended (netOk : Nat → Bool) (url : String)
    (data : List (String × Option String)) (fp : Option (String × String))
    (fn : String) (st : St) (h : ∀ kv ∈ data, kv.2.isSome) :
    ∃ q, buildQuery data = .ok q ∧
      post_data netOk url data fp fn st =
        .ok (netOk st.n,
          { st with
              n := st.n + 1,
              reqs := st.reqs ++ [⟨url ++ "?" ++ q, attachOf fp fn st⟩] }) := by
  obtain ⟨q, hq⟩ := buildQuery_ok data h
  exact ⟨q, hq, post_data_ok netOk url data fp fn st q hq⟩

/-- C7 counterexample: post_data does raise past its boundary when a
metadata value is None (here the access key), contradicting the claim that
it never raises — the error is neither a transport nor a filesystem one. -/
theorem c7_counterexample :
    post_data netTrue "u" [("key", none)] none "f" exSt = .error exSt := rfl

/-- C7 witness: the amended statement at a concrete call with all values
present and no file path: one request, no attachment, result true. -/
theorem c7_witness :
    ∃ q, buildQuery (upload_data exW exTask) = .ok q ∧
      post_data netTrue "u" (upload_data exW exTask) none "f" exSt =
        .ok (netTrue exSt.n,
          { exSt with
              n := exSt.n + 1,
              reqs := exSt.reqs ++ [⟨"u" ++ "?" ++ q, none⟩] }) :=
  c7_post_data_amended netTrue "u" (upload_data exW exTask) none "f" exSt (by decide)

theorem upload_video_loop_err (w : WebPageTest) (netOk : Nat → Bool)
    (data : List (String × Option String)) (vd pfx : String)
    (hq : buildQuery data = .error ()) :
    ∀ (files : List (String × Nat)) (st : St),
      upload_video_loop w netOk data vd pfx files st = .ok st
      ∨ upload_video_loop w netOk data vd pfx files st = .error st := by
  intro files
  induction files with
  | nil => intro st; left; rfl
  | cons f rest ih =>
    intro st
    right
    obtain ⟨name, sz⟩ := f
    simp only [upload_video_loop]
    rw [post_data_err _ _ _ _ _ _ hq]

theorem upload_files_loop_err (w : WebPageTest) (netOk : Nat → Bool)
    (data : List (String × Option String)) (dir : String)
    (hq : buildQuery data = .error ()) :
    ∀ (files : List (String × Nat)) (st : St) (nz : List (String × String)),
      (∃ nz', upload_files_loop w netOk data dir files st nz = .ok (st, nz'))
      ∨ upload_files_loop w netOk data dir files st nz = .error st := by
  intro files
  induction files with
  | nil => intro st nz; exact .inl ⟨nz, rfl⟩
  | cons f rest ih =>
    intro st nz
    obtain ⟨name, size⟩ := f
    by_cases hsz : size > 100000
    · right
      simp only [upload_files_loop, if_pos hsz]
      rw [post_data_err _ _ _ _ _ _ hq]
    · simp only [upload_files_loop, if_neg hsz]
      exact ih st (nz ++ [(dir, name)])

/-- C10: without a configured access key, every upload_task_result call
raises while quoting the None key value for the query string, before any
request is sent — the escaped state carries the unchanged request log and
request counter. -/
theorem c10_upload_raises_without_key (w : WebPageTest) (netOk : Nat → Bool)
    (task : Task) (st : St) (hk : w.key = none) :
    ∃ stE, upload_task_result w netOk task st = .error stE
      ∧ stE.reqs = st.reqs ∧ stE.n = st.n := by
  have hmem : ("key", (none : Option String)) ∈ upload_data w task := by
    simp [upload_data, hk]
  have hq : buildQuery (upload_data w task) = .error () :=
    buildQuery_err_of_mem _ "key" hmem
  have hq1 : buildQuery (if task.done then upload_data w task ++ [("done", some "1")]
      else upload_data w task) = .error () := by
    by_cases hd : task.done
    · rw [if_pos hd]
      exact buildQuery_err_of_mem _ "key" (List.mem_append_left _ hmem)
    · rw [if_neg hd]
      exact hq
  by_cases h1 : fsIsdir st.fs task.dir
  · by_cases h2 : fsIsdir st.fs (task.dir ++ "/video")
    · rcases upload_video_loop_err w netOk (upload_data w task) (task.dir ++ "/video")
          task.prefixStr hq (listdirFiles st.fs (task.dir ++ "/video")) st with hv | hv
      · rcases upload_files_loop_err w netOk (upload_data w task) task.dir hq
            (listdirFiles st.fs task.dir) st [] with ⟨nz', hfl⟩ | hfl
        · refine ⟨{ st with fs := (zip_phase st.fs task.dir nz').2 }, ?_, rfl, rfl⟩
          simp only [upload_task_result, upload_phase1, h1, h2, if_true, hv, hfl]
          rw [post_data_err _ _ _ _ _ _ hq1]
        · refine ⟨st, ?_, rfl, rfl⟩
          simp only [upload_task_result, upload_phase1, h1, h2, if_true, hv, hfl]
      · refine ⟨st, ?_, rfl, rfl⟩
        simp only [upload_task_result, upload_phase1, h1, h2, if_true, hv]
    · rcases upload_files_loop_err w netOk (upload_data w task) task.dir hq
          (listdirFiles st.fs task.dir) st [] with ⟨nz', hfl⟩ | hfl
      · refine ⟨{ st with fs := (zip_phase st.fs task.dir nz').2 }, ?_, rfl, rfl⟩
        simp only [upload_task_result, upload_phase1, h1, h2, if_true, if_false, Bool.false_eq_true, hfl]
        rw [post_data_err _ _ _ _ _ _ hq1]
      · refine ⟨st, ?_, rfl, rfl⟩
        simp only [upload_task_result, upload_phase1, h1, h2, if_true, if_false, Bool.false_eq_true, hfl]
  · refine ⟨st, ?_, rfl, rfl⟩
    simp only [upload_task_result, upload_phase1, h1, if_false, Bool.false_eq_true]
    rw [post_data_err _ _ _ _ _ _ hq1]

/-- C10 witness: a concrete keyless controller raises on a concrete upload
with the request log untouched. -/
theorem c10_witness :
    ∃ stE, upload_task_result exWnokey netTrue exTask exSt = .error stE
      ∧ stE.reqs = exSt.reqs ∧ stE.n = exSt.n :=
  c10_upload_raises_without_key exWnokey netTrue exTask exSt rfl

/-! Step equations and invariants of the large-file upload loop. -/

theorem ufl_nil (w : WebPageTest) (netOk : Nat → Bool)
    (data : List (String × Option String)) (dir : String) (st : St)
    (nz : List (String × String)) :
    upload_files_loop w netOk data dir [] st nz = .ok (st, nz) := rfl

theorem ufl_cons_small (w : WebPageTest) (netOk : Nat → Bool)
    (data : List (String × Option String)) (dir name : String) (size : Nat)
    (rest : List (String × Nat)) (st : St) (nz : List (String × String))
    (hsz : ¬size > 100000) :
    upload_files_loop w netOk data dir ((name, size) :: rest) st nz =
      upload_files_loop w netOk data dir rest st (nz ++ [(dir, name)]) := by
  simp only [upload_files_loop, if_neg hsz]

theorem ufl_cons_big_err (w : WebPageTest) (netOk : Nat → Bool)
    (data : List (String × Option String)) (dir name : String) (size : Nat)
    (rest : List (String × Nat)) (st : St) (nz : List (String × String))
    (hsz : size > 100000) (hq : buildQuery data = .error ()) :
    upload_files_loop w netOk data dir ((name, size) :: rest) st nz = .error st := by
  simp only [upload_files_loop, if_pos hsz]
  rw [post_data_err _ _ _ _ _ _ hq]

theorem ufl_cons_big_ok (w : WebPageTest) (netOk : Nat → Bool)
    (data : List (String × Option String)) (dir name : String) (size : Nat)
    (rest : List (String × Nat)) (st : St) (nz : List (String × String))
    (q : String) (hsz : size > 100000) (hq : buildQuery data = .ok q) :
    upload_files_loop w netOk data dir ((name, size) :: rest) st nz =
      if netOk st.n = true then
        upload_files_loop w netOk data dir rest
          ⟨fsRemoveFile st.fs (dir, name), st.n + 1,
            st.reqs ++ [⟨w.url ++ "resultimage.php" ++ "?" ++ q,
              attachOf (some (dir, name)) name st⟩]⟩ nz
      else
        upload_files_loop w netOk data dir rest
          ⟨st.fs, st.n + 1,
            st.reqs ++ [⟨w.url ++ "resultimage.php" ++ "?" ++ q,
              attachOf (some (dir, name)) name st⟩]⟩ (nz ++ [(dir, name)]) := by
  simp only [upload_files_loop, if_pos hsz]
  rw [post_data_ok _ _ _ _ _ _ q hq]

theorem ufl_reqs_sub (w : WebPageTest) (netOk : Nat → Bool)
    (data : List (String × Option String)) (dir : String) :
    ∀ (files : List (String × Nat)) (st : St) (nz : List (String × String))
      (st' : St) (nz' : List (String × String)),
      upload_files_loop w netOk data dir files st nz = .ok (st', nz') →
      ∃ suf, st'.reqs = st.reqs ++ suf := by
  intro files
  induction files with
  | nil =>
    intro st nz st' nz' h
    rw [ufl_nil] at h
    obtain ⟨rfl, rfl⟩ := Prod.mk.injEq .. ▸ Except.ok.inj h
    exact ⟨[], by simp⟩
  | cons f rest ih =>
    obtain ⟨name, size⟩ := f
    intro st nz st' nz' h
    by_cases hsz : size > 100000
    · cases hbq : buildQuery data with
      | error e =>
        obtain ⟨⟩ := e
        rw [ufl_cons_big_err w netOk data dir name size rest st nz hsz hbq] at h
        exact Except.noConfusion h
      | ok q =>
        rw [ufl_cons_big_ok w netOk data dir name size rest st nz q hsz hbq] at h
        by_cases hok : netOk st.n = true
        · rw [if_pos hok] at h
          obtain ⟨suf, hs⟩ := ih _ _ _ _ h
          exact ⟨⟨w.url ++ "resultimage.php" ++ "?" ++ q,
            attachOf (some (dir, name)) name st⟩ :: suf, by rw [hs]; simp⟩
        · rw [if_neg hok] at h
          obtain ⟨suf, hs⟩ := ih _ _ _ _ h
          exact ⟨⟨w.url ++ "resultimage.php" ++ "?" ++ q,
            attachOf (some (dir, name)) name st⟩ :: suf, by rw [hs]; simp⟩
    · rw [ufl_cons_small w netOk data dir name size rest st nz hsz] at h
      exact ih _ _ _ _ h

theorem ufl_n_inv (w : WebPageTest) (netOk : Nat → Bool)
    (data : List (String × Option String)) (dir : String) :
    ∀ (files : List (String × Nat)) (st : St) (nz : List (String × String))
      (st' : St) (nz' : List (String × String)),
      upload_files_loop w netOk data dir files st nz = .ok (st', nz') →
      st.n = st.reqs.length → st'.n = st'.reqs.length := by
  intro files
  induction files with
  | nil =>
    intro st nz st' nz' h hn
    rw [ufl_nil] at h
    obtain ⟨rfl, rfl⟩ := Prod.mk.injEq .. ▸ Except.ok.inj h
    exact hn
  | cons f rest ih =>
    obtain ⟨name, size⟩ := f
    intro st nz st' nz' h hn
    by_cases hsz : size > 100000
    · cases hbq : buildQuery data with
      | error e =>
        obtain ⟨⟩ := e
        rw [ufl_cons_big_err w netOk data dir name size rest st nz hsz hbq] at h
        exact Except.noConfusion h
      | ok q =>
        rw [ufl_cons_big_ok w netOk data dir name size rest st nz q hsz hbq] at h
        by_cases hok : netOk st.n = true
        · rw [if_pos hok] at h
          refine ih _ _ _ _ h ?_
          simp [hn]
        · rw [if_neg hok] at h
          refine ih _ _ _ _ h ?_
          simp [hn]
    · rw [ufl_cons_small w netOk data dir name size rest st nz hsz] at h
      exact ih _ _ _ _ h hn

theorem ufl_files_sub (w : WebPageTest) (netOk : Nat → Bool)
    (data : List (String × Option String)) (dir : String) :
    ∀ (files : List (String × Nat)) (st : St) (nz : List (String × String))
      (st' : St) (nz' : List (String × String)),
      upload_files_loop w netOk data dir files st nz = .ok (st', nz') →
      ∀ x, x ∈ st'.fs.files → x ∈ st.fs.files := by
  intro files
  induction files with
  | nil =>
    intro st nz st' nz' h
    rw [ufl_nil] at h
    obtain ⟨rfl, rfl⟩ := Prod.mk.injEq .. ▸ Except.ok.inj h
    exact fun x hx => hx
  | cons f rest ih =>
    obtain ⟨name, size⟩ := f
    intro st nz st' nz' h
    by_cases hsz : size > 100000
    · cases hbq : buildQuery data with
      | error e =>
        obtain ⟨⟩ := e
        rw [ufl_cons_big_err w netOk data dir name size rest st nz hsz hbq] at h
        exact Except.noConfusion h
      | ok q =>
        rw [ufl_cons_big_ok w netOk data dir name size rest st nz q hsz hbq] at h
        by_cases hok : netOk st.n = true
        · rw [if_pos hok] at h
          intro x hx
          have := ih _ _ _ _ h x hx
          simp only [fsRemoveFile, List.mem_filter] at this
          exact this.1
        · rw [if_neg hok] at h
          intro x hx
          exact ih _ _ _ _ h x hx
    · rw [ufl_cons_small w netOk data dir name size rest st nz hsz] at h
      intro x hx
      exact ih _ _ _ _ h x hx

theorem ufl_files_preserved (w : WebPageTest) (netOk : Nat → Bool)
    (data : List (String × Option String)) (dir : String) :
    ∀ (files : List (String × Nat)) (st : St) (nz : List (String × String))
      (st' : St) (nz' : List (String × String)),
      upload_files_loop w netOk data dir files st nz = .ok (st', nz') →
      ∀ x, x ∈ st.fs.files → (∀ p ∈ files, x.1 ≠ (dir, p.1)) → x ∈ st'.fs.files := by
  intro files
  induction files with
  | nil =>
    intro st nz st' nz' h
    rw [ufl_nil] at h
    obtain ⟨rfl, rfl⟩ := Prod.mk.injEq .. ▸ Except.ok.inj h
    exact fun x hx _ => hx
  | cons f rest ih =>
    obtain ⟨name, size⟩ := f
    intro st nz st' nz' h x hx hne
    by_cases hsz : size > 100000
    · cases hbq : buildQuery data with
      | error e =>
        obtain ⟨⟩ := e
        rw [ufl_cons_big_err w netOk data dir name size rest st nz hsz hbq] at h
        exact Except.noConfusion h
      | ok q =>
        rw [ufl_cons_big_ok w netOk data dir name size rest st nz q hsz hbq] at h
        by_cases hok : netOk st.n = true
        · rw [if_pos hok] at h
          refine ih _ _ _ _ h x ?_ (fun p hp => hne p (by simp [hp]))
          simp only [fsRemoveFile, List.mem_filter]
          refine ⟨hx, ?_⟩
          have := hne (name, size) (by simp)
          simp [this]
        · rw [if_neg hok] at h
          exact ih _ _ _ _ h x hx (fun p hp => hne p (by simp [hp]))
    · rw [ufl_cons_small w netOk data dir name size rest st nz hsz] at h
      exact ih _ _ _ _ h x hx (fun p hp => hne p (by simp [hp]))

theorem ufl_nz_mono (w : WebPageTest) (netOk : Nat → Bool)
    (data : List (String × Option String)) (dir : String) :
    ∀ (files : List (String × Nat)) (st : St) (nz : List (String × String))
      (st' : St) (nz' : List (String × String)),
      upload_files_loop w netOk data dir files st nz = .ok (st', nz') →
      ∀ y, y ∈ nz → y ∈ nz' := by
  intro files
  induction files with
  | nil =>
    intro st nz st' nz' h
    rw [ufl_nil] at h
    obtain ⟨rfl, rfl⟩ := Prod.mk.injEq .. ▸ Except.ok.inj h
    exact fun y hy => hy
  | cons f rest ih =>
    obtain ⟨name, size⟩ := f
    intro st nz st' nz' h y hy
    by_cases hsz : size > 100000
    · cases hbq : buildQuery data with
      | error e =>
        obtain ⟨⟩ := e
        rw [ufl_cons_big_err w netOk data dir name size rest st nz hsz hbq] at h
        exact Except.noConfusion h
      | ok q =>
        rw [ufl_cons_big_ok w netOk data dir name size rest st nz q hsz hbq] at h
        by_cases hok : netOk st.n = true
        · rw [if_pos hok] at h
          exact ih _ _ _ _ h y hy
        · rw [if_neg hok] at h
          exact ih _ _ _ _ h y (List.mem_append_left _ hy)
    · rw [ufl_cons_small w netOk data dir name size rest st nz hsz] at h
      exact ih _ _ _ _ h y (List.mem_append_left _ hy)

theorem ufl_nz_origin (w : WebPageTest) (netOk : Nat → Bool)
    (data : List (String × Option String)) (dir : String) :
    ∀ (files : List (String × Nat)) (st : St) (nz : List (String × String))
      (st' : St) (nz' : List (String × String)),
      upload_files_loop w netOk data dir files st nz = .ok (st', nz') →
      ∀ y, y ∈ nz' → y ∈ nz ∨ ∃ p ∈ files, y = (dir, p.1) := by
  intro files
  induction files with
  | nil =>
    intro st nz st' nz' h
    rw [ufl_nil] at h
    obtain ⟨rfl, rfl⟩ := Prod.mk.injEq .. ▸ Except.ok.inj h
    exact fun y hy => .inl hy
  | cons f rest ih =>
    obtain ⟨name, size⟩ := f
    intro st nz st' nz' h y hy
    by_cases hsz : size > 100000
    · cases hbq : buildQuery data with
      | error e =>
        obtain ⟨⟩ := e
        rw [ufl_cons_big_err w netOk data dir name size rest st nz hsz hbq] at h
        exact Except.noConfusion h
      | ok q =>
        rw [ufl_cons_big_ok w netOk data dir name size rest st nz q hsz hbq] at h
        by_cases hok : netOk st.n = true
        · rw [if_pos hok] at h
          rcases ih _ _ _ _ h y hy with hin | ⟨p, hp, hyp⟩
          · exact .inl hin
          · exact .inr ⟨p, by simp [hp], hyp⟩
        · rw [if_neg hok] at h
          rcases ih _ _ _ _ h y hy with hin | ⟨p, hp, hyp⟩
          · rcases List.mem_append.mp hin with h1 | h1
            · exact .inl h1
            · exact .inr ⟨(name, size), by simp, by simpa using h1⟩
          · exact .inr ⟨p, by simp [hp], hyp⟩
    · rw [ufl_cons_small w netOk data dir name size rest st nz hsz] at h
      rcases ih _ _ _ _ h y hy with hin | ⟨p, hp, hyp⟩
      · rcases List.mem_append.mp hin with h1 | h1
        · exact .inl h1
        · exact .inr ⟨(name, size), by simp, by simpa using h1⟩
      · exact .inr ⟨p, by simp [hp], hyp⟩

theorem ufl_req_origin (w : WebPageTest) (netOk : Nat → Bool)
    (data : List (String × Option String)) (dir q : String)
    (Hq : buildQuery data = .ok q) :
    ∀ (files : List (String × Nat)) (st : St) (nz : List (String × String))
      (st' : St) (nz' : List (String × String)),
      upload_files_loop w netOk data dir files st nz = .ok (st', nz') →
      ∀ r ∈ st'.reqs, r ∈ st.reqs
        ∨ (r.url = w.url ++ "resultimage.php" ++ "?" ++ q
            ∧ ∃ p ∈ files, p.2 > 100000
              ∧ (r.file_attached = some (p.1, (dir, p.1)) ∨ r.file_attached = none)) := by
  intro files
  induction files with
  | nil =>
    intro st nz st' nz' h
    rw [ufl_nil] at h
    obtain ⟨rfl, rfl⟩ := Prod.mk.injEq .. ▸ Except.ok.inj h
    exact fun r hr => .inl hr
  | cons f rest ih =>
    obtain ⟨name, size⟩ := f
    intro st nz st' nz' h r hr
    by_cases hsz : size > 100000
    · rw [ufl_cons_big_ok w netOk data dir name size rest st nz q hsz Hq] at h
      have hstep : ∀ (st1 : St),
          st1.reqs = st.reqs ++ [⟨w.url ++ "resultimage.php" ++ "?" ++ q,
            attachOf (some (dir, name)) name st⟩] →
          upload_files_loop w netOk data dir rest st1
              (if netOk st.n = true then nz else nz ++ [(dir, name)]) = .ok (st', nz') →
          r ∈ st.reqs
            ∨ (r.url = w.url ++ "resultimage.php" ++ "?" ++ q
                ∧ ∃ p ∈ (name, size) :: rest, p.2 > 100000
                  ∧ (r.file_attached = some (p.1, (dir, p.1)) ∨ r.file_attached = none)) := by
        intro st1 hst1 h1
        rcases ih _ _ _ _ h1 r hr with hin | ⟨hurl, p, hp, hbig, hatt⟩
        · rw [hst1] at hin
          rcases List.mem_append.mp hin with h2 | h2
          · exact .inl h2
          · right
            have hr2 : r = ⟨w.url ++ "resultimage.php" ++ "?" ++ q,
                attachOf (some (dir, name)) name st⟩ := by simpa using h2
            refine ⟨by rw [hr2], (name, size), by simp, hsz, ?_⟩
            rw [hr2]
            simp only [attachOf]
            by_cases hf : fsIsfile st.fs (dir, name)
            · rw [if_pos hf]; exact .inl rfl
            · rw [if_neg hf]; exact .inr rfl
        · exact .inr ⟨hurl, p, by simp [hp], hbig, hatt⟩
      by_cases hok : netOk st.n = true
      · rw [if_pos hok] at h
        exact hstep _ rfl (by rw [if_pos hok]; exact h)
      · rw [if_neg hok] at h
        exact hstep _ rfl (by rw [if_neg hok]; exact h)
    · rw [ufl_cons_small w netOk data dir name size rest st nz hsz] at h
      rcases ih _ _ _ _ h r hr with hin | ⟨hurl, p, hp, hbig, hatt⟩
      · exact .inl hin
      · exact .inr ⟨hurl, p, by simp [hp], hbig, hatt⟩

/-- C3: in the upload loop over the files directly in the task's working
directory, a file strictly above 100000 bytes gets an individual
resultimage.php attempt whose outcome decides its fate — deleted and not
batched on success, retained and queued for the zip archive on failure —
while a file at or below 100000 bytes is always queued for the archive and
never individually attempted. -/
theorem c3_upload_size_threshold (w : WebPageTest) (netOk : Nat → Bool)
    (data : List (String × Option String)) (dir q : String)
    (Hq : buildQuery data = .ok q) :
    ∀ (files : List (String × Nat)) (st : St) (nz : List (String × String))
      (st' : St) (nz' : List (String × String)),
      upload_files_loop w netOk data dir files st nz = .ok (st', nz') →
      (files.map Prod.fst).Nodup →
      (∀ p ∈ files, ((dir, p.1), p.2) ∈ st.fs.files) →
      (∀ p ∈ files, (dir, p.1) ∉ nz) →
      (∀ r ∈ st.reqs, ∀ p ∈ files, r.file_attached ≠ some (p.1, (dir, p.1))) →
      st.n = st.reqs.length →
      ∀ p ∈ files,
        (p.2 > 100000 →
          ∃ i r, st'.reqs[i]? = some r
            ∧ r.url = w.url ++ "resultimage.php" ++ "?" ++ q
            ∧ r.file_attached = some (p.1, (dir, p.1))
            ∧ (netOk i = true →
                (∀ s, ((dir, p.1), s) ∉ st'.fs.files) ∧ (dir, p.1) ∉ nz')
            ∧ (netOk i = false →
                ((dir, p.1), p.2) ∈ st'.fs.files ∧ (dir, p.1) ∈ nz'))
        ∧ (p.2 ≤ 100000 →
          ((dir, p.1), p.2) ∈ st'.fs.files ∧ (dir, p.1) ∈ nz'
            ∧ ∀ r ∈ st'.reqs, r.file_attached ≠ some (p.1, (dir, p.1))) := by
  intro files
  induction files with
  | nil =>
    intro st nz st' nz' h hnd hmem hnz hreqs hn p hp
    simp at hp
  | cons f rest ih =>
    obtain ⟨name, size⟩ := f
    intro st nz st' nz' h hnd hmem hnz hreqs hn p hp
    have hnotin : name ∉ rest.map Prod.fst :=
      (List.nodup_cons.mp (by simpa using hnd)).1
    have hndr : (rest.map Prod.fst).Nodup :=
      (List.nodup_cons.mp (by simpa using hnd)).2
    have hne2 : ∀ p2 ∈ rest, p2.1 ≠ name :=
      fun p2 hp2 heq => hnotin (heq ▸ List.mem_map_of_mem _ hp2)
    by_cases hsz : size > 100000
    · rw [ufl_cons_big_ok w netOk data dir name size rest st nz q hsz Hq] at h
      have hisf : fsIsfile st.fs (dir, name) = true := by
        simp only [fsIsfile, List.any_eq_true]
        exact ⟨_, hmem (name, size) (by simp), by simp⟩
      have hatt : attachOf (some (dir, name)) name st = some (name, (dir, name)) := by
        simp [attachOf, hisf]
      by_cases hok : netOk st.n = true
      · rw [if_pos hok] at h
        rcases List.mem_cons.mp hp with heq | hptail
        · subst heq
          refine ⟨fun _ => ?_, fun hle => by omega⟩
          obtain ⟨suf, hs⟩ := ufl_reqs_sub w netOk data dir rest _ _ _ _ h
          refine ⟨st.reqs.length,
            ⟨w.url ++ "resultimage.php" ++ "?" ++ q, attachOf (some (dir, name)) name st⟩,
            ?_, rfl, hatt, ?_, ?_⟩
          · rw [hs, List.append_assoc, List.getElem?_append_right (Nat.le_refl _)]
            simp
          · intro _
            constructor
            · intro s hmem'
              have := ufl_files_sub w netOk data dir rest _ _ _ _ h _ hmem'
              simp [fsRemoveFile, List.mem_filter] at this
            · intro hin
              rcases ufl_nz_origin w netOk data dir rest _ _ _ _ h _ hin with hin2 | ⟨p2, hp2, hyp2⟩
              · exact hnz (name, size) (by simp) hin2
              · exact hne2 p2 hp2 (by simpa using hyp2.symm)
          · intro hfalse
            have : netOk st.reqs.length = true := hn ▸ hok
            simp [this] at hfalse
        · refine ih _ _ _ _ h hndr ?_ ?_ ?_ ?_ p hptail
          · intro p2 hp2
            simp only [fsRemoveFile, List.mem_filter]
            refine ⟨hmem p2 (by simp [hp2]), ?_⟩
            simp [hne2 p2 hp2]
          · intro p2 hp2
            exact hnz p2 (by simp [hp2])
          · intro r hr p2 hp2
            rcases List.mem_append.mp hr with h2 | h2
            · exact hreqs r h2 p2 (by simp [hp2])
            · have hr2 : r = ⟨w.url ++ "resultimage.php" ++ "?" ++ q,
                  attachOf (some (dir, name)) name st⟩ := by simpa using h2
              rw [hr2, hatt]
              intro hcon
              exact hne2 p2 hp2 (congrArg Prod.fst (Option.some.inj hcon)).symm
          · simp [hn]
      · rw [if_neg hok] at h
        have hokf : netOk st.n = false := by
          cases hb : netOk st.n
          · rfl
          · exact absurd hb hok
        rcases List.mem_cons.mp hp with heq | hptail
        · subst heq
          refine ⟨fun _ => ?_, fun hle => by omega⟩
          obtain ⟨suf, hs⟩ := ufl_reqs_sub w netOk data dir rest _ _ _ _ h
          refine ⟨st.reqs.length,
            ⟨w.url ++ "resultimage.php" ++ "?" ++ q, attachOf (some (dir, name)) name st⟩,
            ?_, rfl, hatt, ?_, ?_⟩
          · rw [hs, List.append_assoc, List.getElem?_append_right (Nat.le_refl _)]
            simp
          · intro htrue
            have : netOk st.reqs.length = false := hn ▸ hokf
            simp [this] at htrue
          · intro _
            constructor
            · refine ufl_files_preserved w netOk data dir rest _ _ _ _ h _
                (hmem (name, size) (by simp)) ?_
              intro p2 hp2 hcon
              exact hne2 p2 hp2 (by simpa using hcon.symm)
            · exact ufl_nz_mono w netOk data dir rest _ _ _ _ h _ (by simp)
        · refine ih _ _ _ _ h hndr ?_ ?_ ?_ ?_ p hptail
          · intro p2 hp2
            exact hmem p2 (by simp [hp2])
          · intro p2 hp2
            simp only [List.mem_append, List.mem_singleton]
            rintro (hin | hin)
            · exact hnz p2 (by simp [hp2]) hin
            · exact hne2 p2 hp2 (by simpa using hin)
          · intro r hr p2 hp2
            rcases List.mem_append.mp hr with h2 | h2
            · exact hreqs r h2 p2 (by simp [hp2])
            · have hr2 : r = ⟨w.url ++ "resultimage.php" ++ "?" ++ q,
                  attachOf (some (dir, name)) name st⟩ := by simpa using h2
              rw [hr2, hatt]
              intro hcon
              exact hne2 p2 hp2 (congrArg Prod.fst (Option.some.inj hcon)).symm
          · simp [hn]
    · rw [ufl_cons_small w netOk data dir name size rest st nz hsz] at h
      rcases List.mem_cons.mp hp with heq | hptail
      · subst heq
        refine ⟨fun hgt => by omega, fun _ => ?_⟩
        refine ⟨?_, ?_, ?_⟩
        · refine ufl_files_preserved w netOk data dir rest _ _ _ _ h _
            (hmem (name, size) (by simp)) ?_
          intro p2 hp2 hcon
          exact hne2 p2 hp2 (by simpa using hcon.symm)
        · exact ufl_nz_mono w netOk data dir rest _ _ _ _ h _ (by simp)
        · intro r hr
          rcases ufl_req_origin w netOk data dir q Hq rest _ _ _ _ h r hr with
            hin | ⟨hurl, p2, hp2, hbig2, hatt2⟩
          · exact hreqs r hin (name, size) (by simp)
          · rcases hatt2 with hatt2 | hatt2
            · rw [hatt2]
              intro hcon
              exact hne2 p2 hp2 (congrArg Prod.fst (Option.some.inj hcon))
            · rw [hatt2]
              exact Option.noConfusion
      · refine ih _ _ _ _ h hndr ?_ ?_ ?_ hn p hptail
        · intro p2 hp2
          exact hmem p2 (by simp [hp2])
        · intro p2 hp2
          simp only [List.mem_append, List.mem_singleton]
          rintro (hin | hin)
          · exact hnz p2 (by simp [hp2]) hin
          · exact hne2 p2 hp2 (by simpa using hin)
        · intro r hr p2 hp2
          exact hreqs r hr p2 (by simp [hp2])

/-- C3 witness: on a concrete directory holding a 100001-byte file and a
100000-byte file, with every request succeeding, the 100001-byte file is
individually attempted (and deleted, not batched) while the 100000-byte
file is batched and never attempted. -/
theorem c3_witness :
    (∃ i r, exStC3'.reqs[i]? = some r
      ∧ r.url = exW.url ++ "resultimage.php" ++ "?" ++ "id=T1&location=loc&key=k&run=1&cached=0&"
      ∧ r.file_attached = some ("big.bin", ("w/T1.1.0", "big.bin"))
      ∧ (netTrue i = true →
          (∀ s, (("w/T1.1.0", "big.bin"), s) ∉ exStC3'.fs.files)
          ∧ ("w/T1.1.0", "big.bin") ∉ exNzC3')
      ∧ (netTrue i = false →
          (("w/T1.1.0", "big.bin"), 100001) ∈ exStC3'.fs.files
          ∧ ("w/T1.1.0", "big.bin") ∈ exNzC3'))
  ∧ ((("w/T1.1.0", "small.bin"), 100000) ∈ exStC3'.fs.files
      ∧ ("w/T1.1.0", "small.bin") ∈ exNzC3'
      ∧ ∀ r ∈ exStC3'.reqs,
          r.file_attached ≠ some ("small.bin", ("w/T1.1.0", "small.bin"))) := by
  have h := c3_upload_size_threshold exW netTrue (upload_data exW exTask) exDir
      "id=T1&location=loc&key=k&run=1&cached=0&" rfl
      exFilesC3 exStC3 [] exStC3' exNzC3' rfl (by decide) (by decide)
      (by decide) (by decide) (by decide)
  exact ⟨(h ("big.bin", 100001) (by decide)).1 (by decide),
         (h ("small.bin", 100000) (by decide)).2 (by decide)⟩

/-! Cleanup lemmas for C8. -/

theorem bool_eq_false (b : Bool) (h : ¬b = true) : b = false := by
  cases b
  · rfl
  · exact absurd rfl h

theorem fsIsdir_rmtree_self (fs : FS) (p : String) :
    fsIsdir (fsRmtree fs p) p = false := by
  simp [fsIsdir, fsRmtree, isUnderPath]

theorem fsIsdir_rmtree_of_not (fs : FS) (p r : String)
    (h : fsIsdir fs p = false) : fsIsdir (fsRmtree fs r) p = false := by
  simp [fsIsdir, fsRmtree, isUnderPath] at h ⊢
  intro hmem
  exact absurd hmem h

theorem upload_cleanup_taskdir (w : WebPageTest) (task : Task) (st : St) :
    fsIsdir (upload_cleanup w task st).fs task.dir = false := by
  unfold upload_cleanup
  by_cases h1 : fsIsdir st.fs task.dir
  · simp only [h1, if_true]
    by_cases h2 : (task.done && fsIsdir (fsRmtree st.fs task.dir) w.workdir) = true
    · simp only [h2, if_true]
      exact fsIsdir_rmtree_of_not _ _ _ (fsIsdir_rmtree_self _ _)
    · simp only [h2, if_false]
      exact fsIsdir_rmtree_self _ _
  · have h1f : fsIsdir st.fs task.dir = false := by
      cases hb : fsIsdir st.fs task.dir
      · rfl
      · exact absurd hb h1
    simp only [h1f, Bool.false_eq_true, if_false]
    by_cases h2 : (task.done && fsIsdir st.fs w.workdir) = true
    · simp only [h2, if_true]
      exact fsIsdir_rmtree_of_not _ _ _ h1f
    · simp only [h2, if_false]
      exact h1f

theorem upload_cleanup_workdir (w : WebPageTest) (task : Task) (st : St)
    (hd : task.done = true) :
    fsIsdir (upload_cleanup w task st).fs w.workdir = false := by
  unfold upload_cleanup
  by_cases h1 : fsIsdir st.fs task.dir
  · rw [if_pos h1]
    dsimp only
    by_cases h2 : (task.done && fsIsdir (fsRmtree st.fs task.dir) w.workdir) = true
    · rw [if_pos h2]
      exact fsIsdir_rmtree_self _ _
    · rw [if_neg h2]
      rw [hd] at h2
      simp only [Bool.true_and] at h2
      exact bool_eq_false _ h2
  · rw [if_neg h1]
    by_cases h2 : (task.done && fsIsdir st.fs w.workdir) = true
    · rw [if_pos h2]
      exact fsIsdir_rmtree_self _ _
    · rw [if_neg h2]
      rw [hd] at h2
      simp only [Bool.true_and] at h2
      exact bool_eq_false _ h2

theorem upload_ok_shape (w : WebPageTest) (netOk : Nat → Bool) (task : Task)
    (st st' : St) (h : upload_task_result w netOk task st = .ok st') :
    ∃ st4, st' = upload_cleanup w task st4 := by
  unfold upload_task_result at h
  cases hph : upload_phase1 w netOk task st with
  | error e =>
    rw [hph] at h
    exact Except.noConfusion h
  | ok p =>
    obtain ⟨zp, st3⟩ := p
    rw [hph] at h
    have h' : (match post_data netOk (w.url ++ "workdone.php")
        (if task.done then upload_data w task ++ [("done", some "1")]
         else upload_data w task) zp "result.zip" st3 with
      | Except.error e => Except.error e
      | Except.ok (_, st4) => Except.ok (upload_cleanup w task st4)) = Except.ok st' := h
    cases hpd : post_data netOk (w.url ++ "workdone.php")
        (if task.done then upload_data w task ++ [("done", some "1")]
         else upload_data w task) zp "result.zip" st3 with
    | error e =>
      rw [hpd] at h'
      exact Except.noConfusion h'
    | ok pr =>
      obtain ⟨b, st4⟩ := pr
      rw [hpd] at h'
      exact ⟨st4, (Except.ok.inj h').symm⟩

/-- C8: whenever upload_task_result returns normally, the task's working
directory no longer exists — whatever the outcomes of the requests were —
and, when the task was the job's last, neither does the whole working
directory; and whenever get_task yields no task, the working directory no
longer exists on the resulting filesystem. -/
theorem c8_cleanup (w : WebPageTest) (netOk : Nat → Bool) (task : Task)
    (st st' : St) (j j' : Job) (fs fs' : FS)
    (hup : upload_task_result w netOk task st = .ok st')
    (hgt : get_task w j fs = (none, j', fs')) :
    fsIsdir st'.fs task.dir = false
  ∧ (task.done = true → fsIsdir st'.fs w.workdir = false)
  ∧ fsIsdir fs' w.workdir = false := by
  obtain ⟨st4, rfl⟩ := upload_ok_shape w netOk task st st' hup
  refine ⟨upload_cleanup_taskdir w task st4,
    fun hd => upload_cleanup_workdir w task st4 hd, ?_⟩
  have hfs : fs' = get_task_fs w j fs := (congrArg (fun t => t.2.2) hgt).symm
  have hnone : (get_task_pure w j).1 = none := congrArg (fun t => t.1) hgt
  rw [hfs]
  unfold get_task_fs
  rw [hnone]
  by_cases hw : fsIsdir fs w.workdir
  · simp only [hw, if_true]
    exact fsIsdir_rmtree_self _ _
  · have hwf : fsIsdir fs w.workdir = false := by
      cases hb : fsIsdir fs w.workdir
      · rfl
      · exact absurd hb hw
    simp only [hwf, Bool.false_eq_true, if_false]

/-- C8 witness: a concrete final task uploaded from an empty state leaves
no task directory and no working directory, and a concrete exhausted job's
get_task call leaves no working directory. -/
theorem c8_witness :
    fsIsdir exStC8'.fs exTaskDone.dir = false
  ∧ (exTaskDone.done = true → fsIsdir exStC8'.fs exW.workdir = false)
  ∧ fsIsdir exFS exW.workdir = false :=
  c8_cleanup exW netTrue exTaskDone exSt exStC8' exJobDone exJobDone exFS exFS
    rfl rfl

theorem upload_cleanup_reqs (w : WebPageTest) (task : Task) (st : St) :
    (upload_cleanup w task st).reqs = st.reqs := by
  unfold upload_cleanup
  dsimp only
  split_ifs <;> rfl

theorem upload_data_isSome (w : WebPageTest) (task : Task) (k : String)
    (hk : w.key = some k) : ∀ kv ∈ upload_data w task, kv.2.isSome := by
  intro kv hkv
  simp only [upload_data, hk, List.mem_cons, List.not_mem_nil, or_false] at hkv
  rcases hkv with h | h | h | h | h <;> simp [h]

theorem upload_phase1_empty (w : WebPageTest) (netOk : Nat → Bool) (task : Task)
    (st : St) (hf : listdirFiles st.fs task.dir = [])
    (hv : listdirFiles st.fs (task.dir ++ "/video") = []) :
    upload_phase1 w netOk task st = .ok (none, st) := by
  unfold upload_phase1
  by_cases h1 : fsIsdir st.fs task.dir
  · rw [if_pos h1]
    by_cases h2 : fsIsdir st.fs (task.dir ++ "/video")
    · rw [if_pos h2, hv]
      simp [upload_video_loop, hf, ufl_nil, zip_phase]
    · rw [if_neg h2]
      simp [hf, ufl_nil, zip_phase]
  · rw [if_neg h1]

theorem upload_empty (w : WebPageTest) (netOk : Nat → Bool) (task : Task)
    (st : St) (q : String)
    (hq : buildQuery (upload_data w task) = .ok q)
    (hdone : task.done = false)
    (hf : listdirFiles st.fs task.dir = [])
    (hv : listdirFiles st.fs (task.dir ++ "/video") = []) :
    upload_task_result w netOk task st =
      .ok (upload_cleanup w task
        { st with
            n := st.n + 1,
            reqs := st.reqs ++ [⟨w.url ++ "workdone.php" ++ "?" ++ q, none⟩] }) := by
  unfold upload_task_result
  rw [upload_phase1_empty w netOk task st hf hv]
  show (match post_data netOk (w.url ++ "workdone.php")
      (if task.done then upload_data w task ++ [("done", some "1")]
       else upload_data w task) none "result.zip" st with
    | Except.error e => Except.error e
    | Except.ok (_, st4) => Except.ok (upload_cleanup w task st4)) = _
  rw [if_neg (by simp [hdone])]
  rw [post_data_ok _ _ _ _ _ _ q hq]
  rfl

/-- C6 (amended): when no browser is registered for the job's selector, the
control loop records the error string on the task, skips execution, and
still issues exactly one upload for that task — here, with an empty task
directory, exactly one workdone request — but the upload's metadata fields
are only id, location, key, run and cached: the error is not among them. -/
theorem c6_invalid_browser (w : WebPageTest) (netOk : Nat → Bool)
    (registry : List (String × String)) (execTask : Task → Task)
    (b : String) (task : Task) (st : St) (k : String)
    (hb : get_browser registry b = none)
    (hk : w.key = some k)
    (hdone : task.done = false)
    (hf : listdirFiles st.fs task.dir = [])
    (hv : listdirFiles st.fs (task.dir ++ "/video") = []) :
    ∃ t st' q,
      run_task_iteration w netOk registry execTask b task st = .ok (t, st')
      ∧ t.error = some ("Invalid browser - " ++ b)
      ∧ st'.reqs = st.reqs ++ [⟨w.url ++ "workdone.php" ++ "?" ++ q, none⟩]
      ∧ (upload_data w t).map Prod.fst = ["id", "location", "key", "run", "cached"] := by
  obtain ⟨q, hq⟩ := buildQuery_ok
    (upload_data w { task with error := some ("Invalid browser - " ++ b) })
    (upload_data_isSome w _ k hk)
  refine ⟨{ task with error := some ("Invalid browser - " ++ b) },
    upload_cleanup w { task with error := some ("Invalid browser - " ++ b) }
      { st with
          n := st.n + 1,
          reqs := st.reqs ++ [⟨w.url ++ "workdone.php" ++ "?" ++ q, none⟩] },
    q, ?_, rfl, ?_, rfl⟩
  · unfold run_task_iteration
    rw [hb]
    show (match upload_task_result w netOk
        { task with error := some ("Invalid browser - " ++ b) } st with
      | Except.error e => Except.error e
      | Except.ok st' =>
        Except.ok ({ task with error := some ("Invalid browser - " ++ b) }, st')) = _
    rw [upload_empty w netOk _ st q hq hdone hf hv]
  · rw [upload_cleanup_reqs]

/-- C6 counterexample: at a concrete failing browser acquisition the task's
error is set and the upload proceeds, but the metadata keys built for the
upload contain no error field, contradicting the claim that the error is
populated in the upload's metadata. -/
theorem c6_counterexample :
    (run_task_iteration exW netTrue [] (fun x => x) "chrome" exTask exSt).toOption.map
        Prod.fst = some { exTask with error := some "Invalid browser - chrome" }
  ∧ ({ exTask with error := some "Invalid browser - chrome" } : Task).error.isSome = true
  ∧ (((upload_data exW { exTask with error := some "Invalid browser - chrome" }).map
      Prod.fst).contains "error") = false := by
  refine ⟨by decide, rfl, by decide⟩

/-- C6 witness: the amended statement at a concrete empty registry, task
and state. -/
theorem c6_witness :
    ∃ t st' q,
      run_task_iteration exW netTrue [] (fun x => x) "chrome" exTask exSt = .ok (t, st')
      ∧ t.error = some ("Invalid browser - " ++ "chrome")
      ∧ st'.reqs = exSt.reqs ++ [⟨exW.url ++ "workdone.php" ++ "?" ++ q, none⟩]
      ∧ (upload_data exW t).map Prod.fst = ["id", "location", "key", "run", "cached"] :=
  c6_invalid_browser exW netTrue [] (fun x => x) "chrome" exTask exSt "k"
    rfl rfl rfl rfl rfl

/-- C4 counterexample: a non-empty response whose body fails JSON parsing
makes get_test raise the parse error past its boundary instead of yielding
no job, contradicting the claim that it never throws. -/
theorem c4_counterexample :
    get_test exW (.ok ⟨"x", none⟩) = .error () := rfl

/-- C4 (amended): get_test yields no job on a network error, on an empty
body, and on a parsed body missing any of 'Test ID' / 'browser' / 'runs';
on a parsed body with all three it yields a well-formed job with iq
defaulting to 30 and pngss to false; the only way it throws is a non-empty
body that fails JSON parsing (the uncaught ValueError). -/
theorem c4_get_test_amended (w : WebPageTest) (resp : Except Unit WptResponse) :
    (∀ e, resp = .error e → get_test w resp = .ok none)
  ∧ (∀ r, resp = .ok r → r.text.length = 0 → get_test w resp = .ok none)
  ∧ (∀ r raw, resp = .ok r → r.json = some raw →
      (raw.testId = none ∨ raw.browser = none ∨ raw.runs = none) →
      get_test w resp = .ok none)
  ∧ (∀ r raw tid b n, resp = .ok r → r.text.length ≠ 0 → r.json = some raw →
      raw.testId = some tid → raw.browser = some b → raw.runs = some n →
      get_test w resp = .ok (some
        ⟨tid, b, n, raw.fvonly, raw.iq.getD 30, raw.pngss.getD false,
          raw.script, raw.url, none⟩))
  ∧ (∀ e, get_test w resp = .error e →
      ∃ r, resp = .ok r ∧ r.text.length ≠ 0 ∧ r.json = none) := by
  refine ⟨?_, ?_, ?_, ?_, ?_⟩
  · rintro e rfl
    rfl
  · rintro r rfl htext
    simp [get_test, htext]
  · rintro r raw rfl hjson hmiss
    by_cases htext : r.text.length ≠ 0
    · cases htid : raw.testId <;> cases hbr : raw.browser <;> cases hrn : raw.runs <;>
        simp [get_test, htext, hjson, htid, hbr, hrn] <;>
        (rcases hmiss with h | h | h <;> simp [htid, hbr, hrn] at h)
    · simp [get_test, htext]
  · rintro r raw tid b n rfl htext hjson htid hb2 hn2
    simp [get_test, htext, hjson, htid, hb2, hn2]
  · intro e hgt
    cases resp with
    | error e2 =>
      rw [show get_test w (.error e2) = .ok none from rfl] at hgt
      exact Except.noConfusion hgt
    | ok r =>
      by_cases htext : r.text.length ≠ 0
      · cases hjson : r.json with
        | none => exact ⟨r, rfl, htext, hjson⟩
        | some raw =>
          cases htid : raw.testId <;> cases hbr : raw.browser <;> cases hrn : raw.runs <;>
            simp [get_test, htext, hjson, htid, hbr, hrn] at hgt
      · simp [get_test, htext] at hgt

/-- C4 witness: the amended statement at a concrete complete response
(defaults applied) and a concrete network error (no job). -/
theorem c4_witness :
    get_test exW exResp = .ok (some
      ⟨"T1", "chrome", 2, none, 30, false, none, some "http://x", none⟩)
  ∧ get_test exW (.error ()) = .ok none :=
  ⟨(c4_get_test_amended exW exResp).2.2.2.1 ⟨"x", some exRaw⟩ exRaw "T1" "chrome" 2
      rfl (by decide) rfl rfl rfl rfl,
   (c4_get_test_amended exW (.error ())).1 () rfl⟩

/-- C9: the control loop's outcome is identical for any two iteration
bodies — in particular a body that raises any exception is caught and the
loop continues — and the loop exits at an iteration only when the shutdown
signal is set there; fuel exhaustion aside, nothing else stops it. -/
theorem c9_loop_catches_all (fuel : Nat) (sig : Nat → Bool)
    (body body' : Nat → Except Unit Unit) (i : Nat) :
    run_testing_loop fuel sig body i = run_testing_loop fuel sig body' i
  ∧ (∀ j, run_testing_loop fuel sig body i = some j → sig j = true) := by
  induction fuel generalizing i with
  | zero => exact ⟨rfl, fun j h => Option.noConfusion h⟩
  | succ f ih =>
    constructor
    · by_cases hs : sig i
      · simp only [run_testing_loop, if_pos hs]
      · cases hbody : body i <;> cases hbody' : body' i <;>
          simp only [run_testing_loop, if_neg hs, hbody, hbody'] <;>
          exact (ih (i + 1)).1
    · intro j h
      by_cases hs : sig i
      · simp only [run_testing_loop, if_pos hs] at h
        exact (Option.some.inj h) ▸ hs
      · simp only [run_testing_loop, if_neg hs] at h
        cases hbody : body i <;> rw [hbody] at h <;> exact (ih (i + 1)).2 j h

/-- C9 witness: at a concrete signal schedule set at iteration 1, a body
that always raises yields the same loop outcome as one that never does,
and the loop's concrete exit iteration has the signal set. -/
theorem c9_witness :
    run_testing_loop 2 (fun k => k == 1) (fun _ => Except.error ()) 0
      = run_testing_loop 2 (fun k => k == 1) (fun _ => Except.ok ()) 0
  ∧ ((fun k : Nat => k == 1) 1) = true :=
  ⟨(c9_loop_catches_all 2 (fun k => k == 1) (fun _ => Except.error ())
      (fun _ => Except.ok ()) 0).1,
   (c9_loop_catches_all 2 (fun k => k == 1) (fun _ => Except.error ())
      (fun _ => Except.ok ()) 0).2 1 (by decide)⟩

end Wpt
